import Mathlib

/-!
Verification development for the article classification and layout-rendering
pipeline (src/hooks/ArticleHooks.js and src/hooks/Article_layout_process.js).

Shallow embedding conventions:
* JavaScript objects (article data, mirror-table rows) are association lists of
  string keys to string values; `article_id` on hook data is kept as an `Int`
  field since the hooks use it as a number.
* JavaScript `undefined` is `Option.none`; the `x || d` default idiom on strings
  is `jsOr` (empty string and absent both fall back, since both are falsy).
* Machine time (`Date.now()`) is an explicit `now : Int` parameter.
* The external key/object store (R2) is an `Option` input: `none` models a
  missing document.  The D1 mirror table is a `List Row`; SQL statements are
  embedded as list operations over it.
* Numeric coercion of strings (`Number(...)`, `isNaN`) is modelled on integers:
  strings of decimal digits with an optional leading minus sign parse, a
  blank/whitespace-only string coerces to 0, everything else is non-numeric.
-/

namespace MyCms

abbrev Str := List Char

/-- A mirror-table (articles_groups) row: association list of column name to
text value, in column order. -/
abbrev Row := List (String × String)

def getCol (r : Row) (k : String) : Option String :=
  (r.find? (fun p => p.1 = k)).map (fun p => p.2)

def getColD (r : Row) (k : String) (d : String) : String :=
  (getCol r k).getD d

/-- Association-list lookup (JS object / Map access by key). -/
def assocLookup {b : Type} (k : String) : List (String × b) → Option b
  | [] => none
  | p :: rest => if p.1 = k then some p.2 else assocLookup k rest

/-- JavaScript `s || d` for string values (empty string is falsy). -/
def jsOr (s d : String) : String := if s = "" then d else s

def isWsChar (c : Char) : Bool := c = ' ' || c = '\t' || c = '\n' || c = '\r'

def isWordChar (c : Char) : Bool := c.isAlphanum || c = '_'

def squote : Char := Char.ofNat 39

def dquote : Char := Char.ofNat 34

def isQuoteChar (c : Char) : Bool := c = squote || c = dquote

def digitsVal (ds : Str) : Nat := ds.foldl (fun a c => a * 10 + (c.toNat - 48)) 0

def digitsToNat (cs : Str) : Option Nat :=
  if cs ≠ [] ∧ cs.all (fun c => c.isDigit) then some (digitsVal cs) else none

def trimChars (s : Str) : Str :=
  ((s.dropWhile isWsChar).reverse.dropWhile isWsChar).reverse

/-- JavaScript `Number(s)` restricted to integers: trims whitespace, empty
coerces to 0, optional leading minus, else decimal digits.  Non-integer
numerals are treated as non-numeric (embedding simplification). -/
def jsNumOf (s : String) : Option Int :=
  match trimChars s.data with
  | [] => some 0
  | c :: rest =>
    if c = '-' then (digitsToNat rest).map (fun n => -(n : Int))
    else (digitsToNat (c :: rest)).map (fun n => (n : Int))

/-- JavaScript `parseInt(s)`: leading integer run, `none` when it is NaN. -/
def parseIntJs (s : String) : Option Int :=
  match trimChars s.data with
  | [] => none
  | c :: rest =>
    if c = '-' then
      match rest.takeWhile (fun d => d.isDigit) with
      | [] => none
      | ds => some (-(digitsVal ds : Int))
    else
      match (c :: rest).takeWhile (fun d => d.isDigit) with
      | [] => none
      | ds => some ((digitsVal ds : Int))

/-- Numeric article id of a mirror row (the `article_id` column). -/
def rowId (r : Row) : Int := (jsNumOf (getColD r "article_id" "")).getD 0

def strIndexOfAux (pat : Str) : Str → Option Nat
  | [] => if pat = [] then some 0 else none
  | c :: rest =>
    if pat.isPrefixOf (c :: rest) then some 0
    else (strIndexOfAux pat rest).map (fun n => n + 1)

/-- Index of the first occurrence of `pat` in `s` (JavaScript `indexOf`,
with `none` for -1). -/
def strIndexOf? (s pat : Str) : Option Nat := strIndexOfAux pat s

def containsSubstr (s pat : Str) : Bool := (strIndexOf? s pat).isSome

def skipWs (s : Str) : Str := s.dropWhile isWsChar

/-- Kernel-computable counterparts of the standard string operations. -/
def toLowerStr (s : String) : String := String.mk (s.data.map Char.toLower)

def toUpperStr (s : String) : String := String.mk (s.data.map Char.toUpper)

def trimStr (s : String) : String := String.mk (trimChars s.data)

def startsWithStr (s p : String) : Bool := p.data.isPrefixOf s.data

def endsWithStr (s p : String) : Bool := p.data.reverse.isPrefixOf s.data.reverse

def splitOnListF : Nat → Str → Str → List Str
  | 0, _, s => [s]
  | fuel + 1, sep, s =>
    match strIndexOf? s sep with
    | none => [s]
    | some i => s.take i :: splitOnListF fuel sep (List.drop (i + sep.length) s)

def splitOnStr (s sep : String) : List String :=
  if sep = "" then [s]
  else (splitOnListF (s.data.length + 1) sep.data s.data).map String.mk

/-- Article data passed into the hooks: a numeric id plus the remaining
fields as strings. -/
structure Article where
  article_id : Int
  fields : List (String × String)
deriving DecidableEq

def getField (a : Article) (k : String) : Option String :=
  (a.fields.find? (fun p => p.1 = k)).map (fun p => p.2)

def getFieldD (a : Article) (k : String) (d : String) : String :=
  (getField a k).getD d

/-- A layout object from sys-system-layouts.json.  Absent string attributes
are the empty string (falsy, like `undefined`); an absent or zero
`layout_limit` is 0, which behaves identically to `undefined` at every use
site (`limit > 0` tests and truthiness). -/
structure Layout where
  active : String := ""
  layout_name : String := ""
  layout_body : String := ""
  layout_display_name : String := ""
  layout_order : String := ""
  layout_limit : Int := 0
  layout_file : String := ""
  layout_css : String := ""
  layout_js : String := ""
  where_clause : String := ""
deriving DecidableEq

/-- Result of the hooks-side cached layout config loader. -/
structure LayoutRegistry where
  allActiveLayouts : List Layout
  activeArticleGroups : List Layout
deriving DecidableEq

def isActiveLayout (l : Layout) : Bool :=
  l.active ≠ "" && toLowerStr l.active = "yes"

/-- `layoutConfigMap.get`: a JS `Map` built from entries keeps the last entry
for a duplicated key, hence the lookup on the reversed list. -/
def lookupLayoutMap (ls : List Layout) (n : String) : Option Layout :=
  ls.reverse.find? (fun l => l.layout_name = n)

/-- getCachedLayoutConfig of ArticleHooks.js (caching and the clock elided;
the input is the parsed sys-system-layouts.json document or `none` when the
object is missing / unreadable, in which case the catch path returns the
empty result). -/
def getCachedLayoutConfigHooks (src : Option (List Layout)) : LayoutRegistry :=
  match src with
  | some layoutConfig =>
    let allActiveLayouts := layoutConfig.filter isActiveLayout
    { allActiveLayouts := allActiveLayouts
      activeArticleGroups :=
        allActiveLayouts.filter (fun l =>
          l.layout_name ≠ "" && startsWithStr l.layout_name "ArticleGroup") }
  | none => { allActiveLayouts := [], activeArticleGroups := [] }

/- where_clause evaluator (checkArticleMatchesWhereClause): the three regex
patterns of the source are embedded as explicit left-to-right scanners. -/

/-- After a matched key: `\s*=\s*` then a quoted value `['"]([^'"]+)['"]`. -/
def parseEqQuoted (s : Str) : Option Str :=
  match skipWs s with
  | c :: rest =>
    if c = '=' then
      match skipWs rest with
      | q :: rest2 =>
        if isQuoteChar q then
          let v := rest2.takeWhile (fun ch => !(isQuoteChar ch))
          match rest2.dropWhile (fun ch => !(isQuoteChar ch)) with
          | q2 :: _ => if v ≠ [] ∧ isQuoteChar q2 then some v else none
          | [] => none
        else none
      | [] => none
    else none
  | [] => none

/-- After a matched key: `\s*=\s*` then a digit run `(\d+)`. -/
def parseEqNum (s : Str) : Option Nat :=
  match skipWs s with
  | c :: rest =>
    if c = '=' then
      match (skipWs rest).takeWhile (fun d => d.isDigit) with
      | [] => none
      | ds => some (digitsVal ds)
    else none
  | [] => none

def scanKeyQuoted (key : Str) : Str → Option Str
  | [] => none
  | c :: rest =>
    if key.isPrefixOf (c :: rest) then
      match parseEqQuoted (List.drop key.length (c :: rest)) with
      | some v => some v
      | none => scanKeyQuoted key rest
    else scanKeyQuoted key rest

def scanKeyNum (key : Str) : Str → Option Nat
  | [] => none
  | c :: rest =>
    if key.isPrefixOf (c :: rest) then
      match parseEqNum (List.drop key.length (c :: rest)) with
      | some v => some v
      | none => scanKeyNum key rest
    else scanKeyNum key rest

/-- One attempt of `(\w+)\s*=\s*['"]?([^'"]+)['"]?` anchored at the head. -/
def parseSimpleEqAt (s : Str) : Option (Str × Str) :=
  let f := s.takeWhile isWordChar
  if f = [] then none
  else
    match skipWs (s.dropWhile isWordChar) with
    | c :: rest =>
      if c = '=' then
        let s3 := skipWs rest
        let s4 := match s3 with
          | q :: r => if isQuoteChar q then r else s3
          | [] => s3
        let v := s4.takeWhile (fun ch => !(isQuoteChar ch))
        if v = [] then none else some (f, v)
      else none
    | [] => none

def scanSimpleEq : Str → Option (Str × Str)
  | [] => none
  | c :: rest =>
    match parseSimpleEqAt (c :: rest) with
    | some fv => some fv
    | none => scanSimpleEq rest

/-- checkArticleMatchesWhereClause of ArticleHooks.js. -/
def checkArticleMatchesWhereClause (articleData : Article) (whereClause : String) : Bool :=
  let trimmedClause := toLowerStr (trimStr whereClause)
  if trimmedClause = "1=1" || trimmedClause = "where 1=1" then true
  else if trimmedClause = "0=1" || trimmedClause = "where 0=1" then false
  else
    let wc := whereClause.data
    let menuRes :=
      if containsSubstr wc ("menu=".data) then scanKeyQuoted ("menu".data) wc else none
    match menuRes with
    | some v => decide (getFieldD articleData "menu" "" = String.mk v)
    | none =>
      let subRes :=
        if containsSubstr wc ("sub_menu_id=".data) then
          scanKeyNum ("sub_menu_id".data) wc
        else none
      match subRes with
      | some n => decide ((parseIntJs (getFieldD articleData "sub_menu_id" "")).getD 0 = (n : Int))
      | none =>
        match scanSimpleEq wc with
        | some fv => decide (getFieldD articleData (String.mk fv.1) "" = String.mk fv.2)
        | none => false

/- Flag collection of syncToArticlesGroups: each of the 18 flags either
resolves directly or is queued for the batched capacity check. -/

inductive FlagDecision where
  | check (layout : Layout)
  | direct (value : String)
deriving DecidableEq

def hlFlagName (i : Nat) : String := "highlight" ++ toString i ++ "_flag"

def agFlagName (i : Nat) : String := "articlegroup" ++ toString i ++ "_flag"

def flagIdx : List Nat := [1, 2, 3, 4, 5, 6, 7, 8, 9]

/-- The highlight-flag branch of syncToArticlesGroups (lines 122-137). -/
def highlightDecision (reg : LayoutRegistry) (data : Article) (i : Nat) : FlagDecision :=
  let flagName := hlFlagName i
  let layoutName := "Highlight" ++ toString i
  let originalFlagValue := jsOr (getFieldD data flagName "") "No"
  if originalFlagValue = "Yes" then
    match lookupLayoutMap reg.allActiveLayouts layoutName with
    | some layout =>
      if layout.layout_limit > 0 then .check layout else .direct "Yes"
    | none => .direct "Yes"
  else .direct originalFlagValue

def whereClauseIncludes (data : Article) (l : Layout) : Bool :=
  if l.where_clause ≠ "" then checkArticleMatchesWhereClause data l.where_clause
  else true

/-- The ArticleGroup-flag branch of syncToArticlesGroups (lines 141-171). -/
def groupDecision (reg : LayoutRegistry) (data : Article) (i : Nat) : FlagDecision :=
  let flagName := agFlagName i
  let layoutName := "ArticleGroup" ++ toString i
  match reg.activeArticleGroups.find? (fun l => l.layout_name = layoutName) with
  | some activeLayout =>
    let shouldInclude := whereClauseIncludes data activeLayout
    if shouldInclude && activeLayout.layout_limit > 0 then .check activeLayout
    else if shouldInclude then .direct "Yes"
    else .direct "No"
  | none => .direct (jsOr (getFieldD data flagName "") "No")

structure CheckEntry where
  flagName : String
  layout : Layout
  isHighlight : Bool
deriving DecidableEq

def collectHighlightDirect (reg : LayoutRegistry) (data : Article) : List (String × String) :=
  flagIdx.filterMap (fun i =>
    match highlightDecision reg data i with
    | .direct v => some (hlFlagName i, v)
    | .check _ => none)

def collectHighlightCheck (reg : LayoutRegistry) (data : Article) : List CheckEntry :=
  flagIdx.filterMap (fun i =>
    match highlightDecision reg data i with
    | .check l => some ⟨hlFlagName i, l, true⟩
    | .direct _ => none)

def collectGroupDirect (reg : LayoutRegistry) (data : Article) : List (String × String) :=
  flagIdx.filterMap (fun i =>
    match groupDecision reg data i with
    | .direct v => some (agFlagName i, v)
    | .check _ => none)

def collectGroupCheck (reg : LayoutRegistry) (data : Article) : List CheckEntry :=
  flagIdx.filterMap (fun i =>
    match groupDecision reg data i with
    | .check l => some ⟨agFlagName i, l, false⟩
    | .direct _ => none)

structure LimitResult where
  count : Int
  limit : Int
  withinLimit : Bool
deriving DecidableEq

/-- The per-flag count of the batched SQL
`SUM(CASE WHEN flag = 'Yes' AND article_id != id THEN 1 ELSE 0 END)`. -/
def countOthers (store : List Row) (flagName : String) (curId : Int) : Nat :=
  (store.filter (fun r => getCol r flagName == some "Yes" && rowId r != curId)).length

/-- checkMultipleLayoutLimits of ArticleHooks.js (success path; the D1-error
fallback to sequential checks is behavior of the external store, outside the
pure model). -/
def checkMultipleLayoutLimits (store : List Row) (flagsToCheck : List CheckEntry)
    (currentArticleId : Int) : List (String × LimitResult) :=
  flagsToCheck.map (fun e =>
    let count : Int := countOthers store e.flagName currentArticleId
    let limit : Int := e.layout.layout_limit
    (e.flagName, { count := count, limit := limit
                   withinLimit := decide (limit ≤ 0) || decide (count < limit) }))

/-- Applying one batch result (`result && result.withinLimit`). -/
def applyLimitResult (results : List (String × LimitResult)) (flagName : String) : String :=
  match assocLookup flagName results with
  | some r => if r.withinLimit then "Yes" else "No"
  | none => "No"

structure ResolvedFlags where
  highlightFlags : List (String × String)
  articleGroupFlags : List (String × String)
deriving DecidableEq

/-- The flag-resolution phase of syncToArticlesGroups: collect, batch-check,
apply.  Entry order matches JS object insertion order: direct flags first
(ascending i), then the checked flags in queue order. -/
def syncFlags (store : List Row) (reg : LayoutRegistry) (data : Article) : ResolvedFlags :=
  let hlDirect := collectHighlightDirect reg data
  let agDirect := collectGroupDirect reg data
  let flagsToCheck := collectHighlightCheck reg data ++ collectGroupCheck reg data
  let results := checkMultipleLayoutLimits store flagsToCheck data.article_id
  { highlightFlags := hlDirect ++
      (flagsToCheck.filter (fun e => e.isHighlight)).map
        (fun e => (e.flagName, applyLimitResult results e.flagName))
    articleGroupFlags := agDirect ++
      (flagsToCheck.filter (fun e => !e.isHighlight)).map
        (fun e => (e.flagName, applyLimitResult results e.flagName)) }

def flagValueOf (flags : List (String × String)) (k : String) : String :=
  (assocLookup k flags).getD "No"

/-- The 35-column INSERT row of syncToArticlesGroups. -/
def buildInsertRow (data : Article) (hl ag : List (String × String)) (now : Int) : Row :=
  [ ("article_id", toString data.article_id)
  , ("issue_date", getFieldD data "issue_date" "")
  , ("starting_date", getFieldD data "starting_date" "")
  , ("ending_date", getFieldD data "ending_date" "")
  , ("sub_menu_id", getFieldD data "sub_menu_id" "")
  , ("menu", getFieldD data "menu" "")
  , ("heading", getFieldD data "heading" "")
  , ("body", getFieldD data "body" "")
  , ("picture_location", getFieldD data "picture_location" "")
  , ("picture2_location", getFieldD data "picture2_location" "")
  , ("by_line", getFieldD data "by_line" "")
  , (hlFlagName 1, flagValueOf hl (hlFlagName 1))
  , (hlFlagName 2, flagValueOf hl (hlFlagName 2))
  , (hlFlagName 3, flagValueOf hl (hlFlagName 3))
  , (hlFlagName 4, flagValueOf hl (hlFlagName 4))
  , (hlFlagName 5, flagValueOf hl (hlFlagName 5))
  , (hlFlagName 6, flagValueOf hl (hlFlagName 6))
  , (hlFlagName 7, flagValueOf hl (hlFlagName 7))
  , (hlFlagName 8, flagValueOf hl (hlFlagName 8))
  , (hlFlagName 9, flagValueOf hl (hlFlagName 9))
  , (agFlagName 1, flagValueOf ag (agFlagName 1))
  , (agFlagName 2, flagValueOf ag (agFlagName 2))
  , (agFlagName 3, flagValueOf ag (agFlagName 3))
  , (agFlagName 4, flagValueOf ag (agFlagName 4))
  , (agFlagName 5, flagValueOf ag (agFlagName 5))
  , (agFlagName 6, flagValueOf ag (agFlagName 6))
  , (agFlagName 7, flagValueOf ag (agFlagName 7))
  , (agFlagName 8, flagValueOf ag (agFlagName 8))
  , (agFlagName 9, flagValueOf ag (agFlagName 9))
  , ("unique_file", getFieldD data "unique_file" "")
  , ("active", jsOr (getFieldD data "active" "") "Yes")
  , ("created_by", getFieldD data "created_by" "")
  , ("creation_date", jsOr (getFieldD data "creation_date" "") (toString now))
  , ("last_updated_by", getFieldD data "last_updated_by" "")
  , ("last_update_date", jsOr (getFieldD data "last_update_date" "") (toString now)) ]

/-- SQL `UPDATE ... SET col = v`: replace the column where present, else add. -/
def setCol (r : Row) (k v : String) : Row :=
  if r.any (fun p => p.1 = k) then
    r.map (fun p => if p.1 = k then (k, v) else p)
  else r ++ [(k, v)]

def applyUpdates (upds : List (String × String)) (r : Row) : Row :=
  upds.foldl (fun acc kv => setCol acc kv.1 kv.2) r

/-- The optimized UPDATE of syncToArticlesGroups: timestamp plus all flags. -/
def updateRowFlags (r : Row) (hl ag : List (String × String)) (now : Int) : Row :=
  applyUpdates (("last_update_date", toString now) :: (hl ++ ag)) r

def hasAnyYes (flags : List (String × String)) : Bool :=
  flags.any (fun p => p.2 = "Yes")

/-- syncToArticlesGroups of ArticleHooks.js as a transform of the mirror
table.  The `env.D1` guard and the internal try/catch (which leave the store
unchanged) are not separate branches of the pure model. -/
def syncToArticlesGroups (src : Option (List Layout)) (store : List Row)
    (data : Article) (operation : String) (now : Int) : List Row :=
  if data.article_id = 0 then store
  else
    let reg := getCachedLayoutConfigHooks src
    let flags := syncFlags store reg data
    let hasAnyHighlight := hasAnyYes flags.highlightFlags
    let hasAnyArticleGroup := hasAnyYes flags.articleGroupFlags
    if operation = "create" then
      if !hasAnyHighlight && !hasAnyArticleGroup then store
      else store ++ [buildInsertRow data flags.highlightFlags flags.articleGroupFlags now]
    else if operation = "update" then
      if !hasAnyHighlight && !hasAnyArticleGroup then
        store.filter (fun r => rowId r != data.article_id)
      else if store.any (fun r => rowId r == data.article_id) then
        store.map (fun r =>
          if rowId r == data.article_id then
            updateRowFlags r flags.highlightFlags flags.articleGroupFlags now
          else r)
      else store ++ [buildInsertRow data flags.highlightFlags flags.articleGroupFlags now]
    else store

/-- deleteFromArticlesGroups: `DELETE FROM articles_groups WHERE article_id = ?`. -/
def deleteFromArticlesGroups (store : List Row) (articleId : Int) : List Row :=
  store.filter (fun r => rowId r != articleId)

/-! Template rendering engine (Article_layout_process.js).  Template text is
processed as `List Char`.  The conditional-block regex of the source is
embedded as an explicit scanner with the same matching discipline, including
its case-insensitive keywords and the fact that the final ElseIf chunk of a
chain can never match (the inner ElseIf pattern requires a following
delimiter inside the captured chunk string). -/

/-- A JavaScript value as it appears in template comparisons after the
`isNaN`/`Number` coercion step. -/
inductive JsVal where
  | undef
  | num (n : Int)
  | str (s : String)
deriving DecidableEq

/-- Coercion applied to each operand: `if (!isNaN(x)) x = Number(x)`. -/
def jsCoerce (v : Option String) : JsVal :=
  match v with
  | none => JsVal.undef
  | some s =>
    match jsNumOf s with
    | some n => JsVal.num n
    | none => JsVal.str s

/-- JavaScript loose equality on coerced operands. -/
def jsEqV : JsVal → JsVal → Bool
  | JsVal.undef, JsVal.undef => true
  | JsVal.num n, JsVal.num m => n == m
  | JsVal.str s, JsVal.str t => s == t
  | _, _ => false

/-- JavaScript `>` on coerced operands (NaN outcomes are false). -/
def jsGtV : JsVal → JsVal → Bool
  | JsVal.num n, JsVal.num m => n > m
  | JsVal.str s, JsVal.str t => decide (t < s)
  | _, _ => false

/-- JavaScript `>=` on coerced operands. -/
def jsGeV : JsVal → JsVal → Bool
  | JsVal.num n, JsVal.num m => n ≥ m
  | JsVal.str s, JsVal.str t => decide (¬ s < t)
  | _, _ => false

/-- The default (no recognised operator) test:
`Boolean(actual && actual.toString().trim() !== "")`. -/
def jsTruthyNonBlank : JsVal → Bool
  | JsVal.undef => false
  | JsVal.num n => n != 0
  | JsVal.str s => s ≠ "" && trimStr s ≠ ""

structure CondTest where
  field : Str
  op : Option Str
  val : Option Str
deriving DecidableEq

/-- checkCondition of the repeat-block interpreter. -/
def checkCondition (art : Row) (t : CondTest) : Bool :=
  let actual := jsCoerce (getCol art (String.mk t.field))
  let expected := match t.val with
    | none => JsVal.undef
    | some v => jsCoerce (some (String.mk v))
  match t.op.map String.mk with
  | some o =>
    if o = "=" || o = "==" then jsEqV actual expected
    else if o = "!=" then !(jsEqV actual expected)
    else if o = ">" then jsGtV actual expected
    else if o = "<" then jsGtV expected actual
    else if o = ">=" then jsGeV actual expected
    else if o = "<=" then jsGeV expected actual
    else jsTruthyNonBlank actual
  | none => jsTruthyNonBlank actual

structure CondBlock where
  test : CondTest
  ifContent : Str
  elseIfs : List (CondTest × Str)
  elseContent : Str
deriving DecidableEq

def ciIsPrefixOf : Str → Str → Bool
  | [], _ => true
  | _ :: _, [] => false
  | p :: ps, c :: cs => p = c.toLower && ciIsPrefixOf ps cs

def ciIndexOfAux (pat : Str) : Str → Option Nat
  | [] => if pat = [] then some 0 else none
  | c :: rest =>
    if ciIsPrefixOf pat (c :: rest) then some 0
    else (ciIndexOfAux pat rest).map (fun n => n + 1)

/-- Case-insensitive first-occurrence index (`pat` given in lower case). -/
def ciIndexOf? (s pat : Str) : Option Nat := ciIndexOfAux pat s

def ifMarker : Str := ("\x7b\x7bif").data

def elseIfMarker : Str := ("\x7b\x7belseif").data

def elseMarker : Str := ("\x7b\x7belse\x7d\x7d").data

def endIfMarker : Str := ("\x7b\x7bendif\x7d\x7d").data

def closeBraces : Str := ("\x7d\x7d").data

def isOpChar (c : Char) : Bool := c = '=' || c = '!' || c = '<' || c = '>'

def isValChar (c : Char) : Bool := isWordChar c || c = '.' || c = '-'

/-- The optional `\s*([=!<>]{1,2})\s*([\w.-]+)` part of a condition header. -/
def parseOpVal (s : Str) : Option (Str × Str × Str) :=
  match skipWs s with
  | c1 :: r1 =>
    if isOpChar c1 then
      let ov : Str × Str := match r1 with
        | c2 :: r2 => if isOpChar c2 then ([c1, c2], r2) else ([c1], r1)
        | [] => ([c1], r1)
      let s3 := skipWs ov.2
      let v := s3.takeWhile isValChar
      if v = [] then none else some (ov.1, v, s3.dropWhile isValChar)
    else none
  | [] => none

/-- Parse `\s+([\w]+)(?:\s*([=!<>]{1,2})\s*([\w.-]+))?\x7d\x7d` directly after
an If/ElseIf keyword; returns the test and the remaining text. -/
def parseCondHeader (s : Str) : Option (CondTest × Str) :=
  match s with
  | c :: rest =>
    if isWsChar c then
      let s1 := skipWs rest
      let field := s1.takeWhile isWordChar
      if field = [] then none
      else
        let s2 := s1.dropWhile isWordChar
        match parseOpVal s2 with
        | some ovr =>
          if closeBraces.isPrefixOf ovr.2.2 then
            some (⟨field, some ovr.1, some ovr.2.1⟩, ovr.2.2.drop 2)
          else none
        | none =>
          if closeBraces.isPrefixOf s2 then some (⟨field, none, none⟩, s2.drop 2)
          else none
    else none
  | [] => none

/-- Scan forward to the first ElseIf / Else / EndIf keyword (codes 0/1/2),
returning the text before it and the text after the keyword. -/
def splitAtDelim : Str → Option (Str × Nat × Str)
  | [] => none
  | c :: rest =>
    if ciIsPrefixOf elseIfMarker (c :: rest) then
      some ([], 0, List.drop elseIfMarker.length (c :: rest))
    else if ciIsPrefixOf elseMarker (c :: rest) then
      some ([], 1, List.drop elseMarker.length (c :: rest))
    else if ciIsPrefixOf endIfMarker (c :: rest) then
      some ([], 2, List.drop endIfMarker.length (c :: rest))
    else (splitAtDelim rest).map (fun t => (c :: t.1, t.2.1, t.2.2))

/-- Take everything up to the Else-part terminator `\x7b\x7bEndIf\x7d\x7d`. -/
def splitAtEndIf (s : Str) : Option (Str × Str) :=
  (ciIndexOf? s endIfMarker).map (fun i => (s.take i, s.drop (i + endIfMarker.length)))

/-- Parse a chain of ElseIf chunks (fuelled; each step consumes at least the
chunk header).  Returns the chunk list, the Else content and the remainder. -/
def parseElseIfChain : Nat → Str → Option (List (CondTest × Str) × Str × Str)
  | 0, _ => none
  | fuel + 1, r =>
    match parseCondHeader r with
    | none => none
    | some tr =>
      match splitAtDelim tr.2 with
      | none => none
      | some cd =>
        match cd.2.1 with
        | 2 => some ([(tr.1, cd.1)], [], cd.2.2)
        | 1 =>
          (splitAtEndIf cd.2.2).map (fun p => ([(tr.1, cd.1)], p.1, p.2))
        | _ =>
          (parseElseIfChain fuel cd.2.2).map
            (fun p => ((tr.1, cd.1) :: p.1, p.2.1, p.2.2))

/-- Parse a full conditional block whose If keyword has just been consumed. -/
def parseCondAt (s : Str) : Option (CondBlock × Str) :=
  match parseCondHeader s with
  | none => none
  | some tr =>
    match splitAtDelim tr.2 with
    | none => none
    | some cd =>
      match cd.2.1 with
      | 2 => some (⟨tr.1, cd.1, [], []⟩, cd.2.2)
      | 1 =>
        (splitAtEndIf cd.2.2).map (fun p => (⟨tr.1, cd.1, [], p.1⟩, p.2))
      | _ =>
        (parseElseIfChain (cd.2.2.length + 1) cd.2.2).map
          (fun p => (⟨tr.1, cd.1, p.1, p.2.1⟩, p.2.2))

/-- A matched branch whose comparison value is numeric overrides the
iteration limit: `if (!isNaN(v)) countLimit = Number(v)`. -/
def overrideLimit (t : CondTest) (limit : Int) : Int :=
  match t.val with
  | some v =>
    match jsNumOf (String.mk v) with
    | some n => n
    | none => limit
  | none => limit

def findElseIfMatch (art : Row) : List (CondTest × Str) → Option (CondTest × Str)
  | [] => none
  | tc :: rest =>
    if checkCondition art tc.1 then some tc else findElseIfMatch art rest

/-- Choose the branch of one conditional block and apply the limit override.
Only `elseIfs.dropLast` is consulted: the source re-parses the captured
ElseIf chunk text with a pattern whose trailing lookahead can never succeed
for the final chunk. -/
def evalCondBlock (art : Row) (cb : CondBlock) (limit : Int) : Str × Int :=
  if checkCondition art cb.test then (cb.ifContent, overrideLimit cb.test limit)
  else
    match findElseIfMatch art cb.elseIfs.dropLast with
    | some tc => (tc.2, overrideLimit tc.1 limit)
    | none => (cb.elseContent, limit)

/-- Global left-to-right replacement of conditional blocks, threading the
iteration limit through the overrides (fuelled scanner). -/
def renderCondsF : Nat → Row → Str → Int → Str × Int
  | 0, _, s, limit => (s, limit)
  | fuel + 1, art, s, limit =>
    match ciIndexOf? s ifMarker with
    | none => (s, limit)
    | some i =>
      let pre := s.take i
      let after := List.drop (i + ifMarker.length) s
      match parseCondAt after with
      | some cbr =>
        let br := evalCondBlock art cbr.1 limit
        let out := renderCondsF fuel art cbr.2 br.2
        (pre ++ br.1 ++ out.1, out.2)
      | none =>
        let kw := (s.drop i).take ifMarker.length
        let out := renderCondsF fuel art after limit
        (pre ++ kw ++ out.1, out.2)

def renderConds (art : Row) (s : Str) (limit : Int) : Str × Int :=
  renderCondsF (s.length + 1) art s limit

def replaceAllF : Nat → Str → Str → Str → Str
  | 0, _, _, s => s
  | fuel + 1, pat, repl, s =>
    match s with
    | [] => []
    | c :: rest =>
      if pat ≠ [] ∧ pat.isPrefixOf (c :: rest) then
        repl ++ replaceAllF fuel pat repl (List.drop pat.length (c :: rest))
      else c :: replaceAllF fuel pat repl rest

/-- `s.replace(new RegExp(pat, "g"), repl)` for a literal pattern. -/
def replaceAll (pat repl s : Str) : Str := replaceAllF (s.length + 1) pat repl s

/-- Replace every `\x7b\x7bkey\x7d\x7d` with the entry value, in entry order
(`Object.entries(art).forEach`). -/
def substFields (art : Row) (s : Str) : Str :=
  art.foldl
    (fun acc kv =>
      replaceAll (("\x7b\x7b").data ++ kv.1.data ++ ("\x7d\x7d").data) kv.2.data acc)
    s

/-- One iteration body of the repeat loop: inject the 1-based Counter,
evaluate conditionals (possibly overriding the limit), substitute fields. -/
def renderItem (block : Str) (art : Row) (counter : Nat) (limit : Int) : Str × Int :=
  let artC := setCol art "Counter" (toString counter)
  let cl := renderConds artC block limit
  (substFields artC cl.1, cl.2)

/-- The repeat loop: renders each article, breaking once the (possibly
overridden) limit is reached (`if (idx >= countLimit) break`). -/
def renderLoop (block : Str) (limit : Int) (idx : Nat) : List Row → Str
  | [] => []
  | art :: rest =>
    let tl := renderItem block art (idx + 1) limit
    tl.1 ++ (if ((idx + 1 : Nat) : Int) ≥ tl.2 then [] else renderLoop block tl.2 (idx + 1) rest)

def repeatBeginMarker : Str := ("\x7b\x7bRepeatBegin\x7d\x7d").data

def repeatEndMarker : Str := ("\x7b\x7bRepeatEnd\x7d\x7d").data

def displayNameMarker : Str := ("\x7b\x7bLayoutDisplayName\x7d\x7d").data

/-- JavaScript `substring`: clamps and swaps its two indices. -/
def jsSubstring (s : Str) (a b : Nat) : Str :=
  (s.drop (min a b)).take (max a b - min a b)

/-- The template-processing stage for one layout (display-name substitution,
repeat-block extraction, limit resolution, loop). -/
def renderTemplate (layout : Layout) (articles : List Row) : Str :=
  let template :=
    replaceAll displayNameMarker layout.layout_display_name.data layout.layout_body.data
  match strIndexOf? template repeatBeginMarker, strIndexOf? template repeatEndMarker with
  | some repeatStart, some repeatEnd =>
    let before := jsSubstring template 0 repeatStart
    let repeatBlock := jsSubstring template (repeatStart + repeatBeginMarker.length) repeatEnd
    let after := template.drop (repeatEnd + repeatEndMarker.length)
    let countLimit : Int :=
      if layout.layout_limit ≠ 0 then layout.layout_limit else (articles.length : Int)
    before ++ renderLoop repeatBlock countLimit 0 articles ++ after
  | _, _ => template

/-! The per-layout pipeline around the template stage. -/

structure ArticlesCache where
  all : List Row
  byHighlight : List (String × List Row)
deriving DecidableEq

def issueKey (r : Row) : Int := (jsNumOf (getColD r "issue_date" "")).getD 0

def insertByIssueDate (x : Row) : List Row → List Row
  | [] => [x]
  | y :: ys => if issueKey x > issueKey y then x :: y :: ys else y :: insertByIssueDate x ys

/-- `ORDER BY issue_date DESC` (stable). -/
def orderByIssueDateDesc (rows : List Row) : List Row :=
  rows.foldl (fun acc x => insertByIssueDate x acc) []

/-- The flag columns of a row that are set (case-insensitively) to yes:
`key.endsWith("_flag") && value && value.toLowerCase() === "yes"`. -/
def rowFlagBuckets (r : Row) : List String :=
  (r.filter (fun kv => endsWithStr kv.1 "_flag" && kv.2 ≠ "" && toLowerStr kv.2 = "yes")).map
    (fun kv => kv.1)

def addToBucket (m : List (String × List Row)) (k : String) (r : Row) :
    List (String × List Row) :=
  if m.any (fun p => p.1 = k) then
    m.map (fun p => if p.1 = k then (p.1, p.2 ++ [r]) else p)
  else m ++ [(k, [r])]

def buildByHighlight (rows : List Row) : List (String × List Row) :=
  rows.foldl (fun m r => (rowFlagBuckets r).foldl (fun m2 k => addToBucket m2 k r) m) []

/-- getCachedArticles of Article_layout_process.js:
`SELECT * FROM articles_groups WHERE Active = 'Yes' ORDER BY issue_date DESC`
plus the by-flag grouping (cache TTL elided). -/
def getCachedArticles (store : List Row) : ArticlesCache :=
  let allArticles := orderByIssueDateDesc (store.filter (fun r => getCol r "active" == some "Yes"))
  { all := allArticles, byHighlight := buildByHighlight allArticles }

/-- Item-subset selection: highlight-named layouts read their flag bucket,
all other layouts read the full list.  Also returns the highlightField. -/
def selectArticles (cache : ArticlesCache) (layout : Layout) : Option String × List Row :=
  if layout.layout_name ≠ "" && startsWithStr (toLowerStr layout.layout_name) "highlight" then
    let highlightField := toLowerStr layout.layout_name ++ "_flag"
    (some highlightField, (assocLookup highlightField cache.byHighlight).getD [])
  else (none, cache.all)

/-- JavaScript `orderItem.split(/\s+/)`. -/
def splitWsRunsF : Nat → Str → List Str
  | 0, _ => []
  | _, [] => []
  | fuel + 1, s =>
    let tok := s.takeWhile (fun c => !(isWsChar c))
    let rest := (s.dropWhile (fun c => !(isWsChar c))).dropWhile isWsChar
    tok :: (if rest = [] then [] else splitWsRunsF fuel rest)

def splitWsRuns (s : Str) : List Str := splitWsRunsF (s.length + 1) s

/-- The multi-key sort comparator: validates each field name
(`^[a-zA-Z0-9_]+$`, throwing on failure), converts both values to numbers
when both are numeric, skips equal keys, and resolves by direction. -/
def cmpArticlesByOrders (orders : List String) (a b : Row) : Except String Int :=
  match orders with
  | [] => Except.ok 0
  | orderItem :: rest =>
    let parts := splitWsRuns orderItem.data
    let field := parts.headD []
    if !(field ≠ [] && field.all isWordChar) then
      Except.error ("Invalid field in layout_order: " ++ String.mk field)
    else
      let dirAsc : Bool := match parts.get? 1 with
        | some d => toUpperStr (String.mk d) = "ASC"
        | none => false
      let aRaw := getCol a (String.mk field)
      let bRaw := getCol b (String.mk field)
      let an := aRaw.bind jsNumOf
      let bn := bRaw.bind jsNumOf
      let bothNum := an.isSome && bn.isSome
      let eqv : Bool :=
        if bothNum then an.getD 0 == bn.getD 0 else aRaw == bRaw
      if eqv then cmpArticlesByOrders rest a b
      else
        let gtv : Bool :=
          if bothNum then an.getD 0 > bn.getD 0
          else match aRaw, bRaw with
            | some s, some t => decide (t < s)
            | _, _ => false
        if dirAsc then Except.ok (if gtv then 1 else -1)
        else Except.ok (if gtv then -1 else 1)

/-- Stable insertion into a sorted prefix; a comparator error aborts the
whole sort, as a comparator throw aborts `Array.prototype.sort`. -/
def insertSortedE (cmp : Row → Row → Except String Int) (x : Row) :
    List Row → Except String (List Row)
  | [] => Except.ok [x]
  | y :: ys => do
    let c ← cmp x y
    if c < 0 then pure (x :: y :: ys)
    else do
      let tail ← insertSortedE cmp x ys
      pure (y :: tail)

def sortArticlesE (cmp : Row → Row → Except String Int) (arts : List Row) :
    Except String (List Row) :=
  arts.foldlM (fun acc x => insertSortedE cmp x acc) []

/-- The sort stage for one layout (`[...articles].sort(...)` under
`layout.layout_order && layout.layout_order.trim().length > 0`). -/
def sortStage (layout : Layout) (articles : List Row) : Except String (List Row) :=
  if layout.layout_order ≠ "" && trimStr layout.layout_order ≠ "" then
    sortArticlesE
      (cmpArticlesByOrders ((splitOnStr layout.layout_order ",").map (fun s => trimStr s)))
      articles
  else Except.ok articles

structure RenderResult where
  layout_name : String
  fn : Option String
  file : Option String
  filtered_by : String
  article_count : Nat
  status : String
deriving DecidableEq

structure R2Op where
  fileName : String
  content : Str
  contentType : String
deriving DecidableEq

structure RenderState where
  combinedJs : Str
  results : List RenderResult
  r2Ops : List R2Op
deriving DecidableEq

def extOf (fileName : String) : String :=
  toLowerStr ((splitOnStr fileName ".").getLastD fileName)

def contentTypeOf (ext : String) : String :=
  if ext = "js" then "application/javascript"
  else if ext = "xml" then "application/xml"
  else if ext = "json" then "application/json"
  else if ext = "rss" then "application/rss+xml"
  else "application/octet-stream"

/-- One iteration of the per-layout loop of Article_layout_process (skip on
empty body, menu-prefix skip result, select, sort, render, css/js wrappers,
artifact bookkeeping).  A thrown sort error propagates. -/
def processOneLayout (cache : ArticlesCache) (st : RenderState) (layout : Layout) :
    Except String RenderState :=
  if layout.layout_body = "" then Except.ok st
  else if layout.layout_name ≠ "" && startsWithStr (toLowerStr layout.layout_name) "menu" then
    Except.ok { st with results := st.results ++
      [⟨layout.layout_name, none, none, "skipped (menu*)", 0, "skipped"⟩] }
  else do
    let sel := selectArticles cache layout
    let articles ← sortStage layout sel.2
    let html0 := renderTemplate layout articles
    let html1 :=
      if layout.layout_css ≠ "" then
        html0 ++ ("<style>").data ++ layout.layout_css.data ++ ("</style>").data
      else html0
    let html :=
      if layout.layout_js ≠ "" then
        html1 ++ ("<script>").data ++ layout.layout_js.data ++ ("</script>").data
      else html1
    let fileName := jsOr layout.layout_file "layout.js"
    let ext := extOf fileName
    let functionName :=
      "Get" ++ String.mk (layout.layout_name.data.filter (fun c => !(isWsChar c)))
    let contentToSave :=
      if ext = "js" then
        ("function ").data ++ functionName.data ++ ("()\x7bdocument.write(`").data ++
          html ++ ("`);\x7d\n\n").data
      else html
    Except.ok
      { combinedJs := if ext = "js" then st.combinedJs ++ contentToSave else st.combinedJs
        results := st.results ++
          [⟨layout.layout_name, if ext = "js" then some functionName else none,
            some fileName, if sel.1.isSome then "yes" else "none",
            articles.length, "added"⟩]
        r2Ops := st.r2Ops ++ [⟨fileName, contentToSave, contentTypeOf ext⟩] }

def processLayouts (cache : ArticlesCache) (layouts : List Layout) (st : RenderState) :
    Except String RenderState :=
  layouts.foldlM (fun s l => processOneLayout cache s l) st

structure RenderResponse where
  status : String
  details : List RenderResult
  combinedJs : Str
  r2Ops : List R2Op
deriving DecidableEq

/-- The rendering-side cached layout config loader: unlike the hooks-side
loader, a missing source document throws. -/
def renderGetCachedLayoutConfig (src : Option (List Layout)) : Except String (List Layout) :=
  match src with
  | none => Except.error "sys-system-layouts.json not found"
  | some layoutsRaw => Except.ok (layoutsRaw.filter isActiveLayout)

/-- Article_layout_process: loads config and articles, processes every
layout, and reports the combined script plus the queued artifact writes.
The outer catch logs and rethrows, so an error inside the loop propagates
unchanged. -/
def Article_layout_process (src : Option (List Layout)) (store : List Row) :
    Except String RenderResponse := do
  let layouts ← renderGetCachedLayoutConfig src
  let cache := getCachedArticles store
  let st ← processLayouts cache layouts ⟨[], [], []⟩
  Except.ok { status := "success", details := st.results
              combinedJs := st.combinedJs, r2Ops := st.r2Ops }

/-! Public hook entry points (ArticleHooks.js).  Each wraps its pipeline in
try/catch and returns its input data; the pipeline outcomes are passed in as
`Except` values so that every behavior of the external stores (including
failures) is covered. -/

/-- afterCreate: try/catch around sync + render, always returns `data`. -/
def afterCreate (data : Article) (syncOutcome : Except String (List Row))
    (renderOutcome : Except String RenderResponse) : Article :=
  match syncOutcome with
  | Except.error _ => data
  | Except.ok _ =>
    match renderOutcome with
    | Except.error _ => data
    | Except.ok _ => data

/-- afterUpdate: same try/catch shape as afterCreate. -/
def afterUpdate (updatedData : Article) (syncOutcome : Except String (List Row))
    (renderOutcome : Except String RenderResponse) : Article :=
  match syncOutcome with
  | Except.error _ => updatedData
  | Except.ok _ =>
    match renderOutcome with
    | Except.error _ => updatedData
    | Except.ok _ => updatedData

/-- afterDelete: try/catch around deleteFromArticlesGroups, returns `data`. -/
def afterDelete (data : Article) (deleteOutcome : Except String (List Row)) : Article :=
  match deleteOutcome with
  | Except.error _ => data
  | Except.ok _ => data

def exceptDecEq {e a : Type} [DecidableEq e] [DecidableEq a] : DecidableEq (Except e a)
  | Except.error x, Except.error y =>
    if h : x = y then isTrue (congrArg Except.error h)
    else isFalse (fun c => h (Except.error.inj c))
  | Except.error _, Except.ok _ => isFalse (fun c => Except.noConfusion c)
  | Except.ok _, Except.error _ => isFalse (fun c => Except.noConfusion c)
  | Except.ok x, Except.ok y =>
    if h : x = y then isTrue (congrArg Except.ok h)
    else isFalse (fun c => h (Except.ok.inj c))

instance {e a : Type} [DecidableEq e] [DecidableEq a] : DecidableEq (Except e a) :=
  exceptDecEq

/-! ## Specification-side definitions -/

/-- Specification view of one rendered repeat-block copy: the block with the
1-based Counter injected and every field placeholder substituted. -/
def specRenderItem (block : Str) (art : Row) (counter : Nat) : Str :=
  substFields (setCol art "Counter" (toString counter)) block

/-- Specification view of the loop output: one copy per item, in order,
with 1-based counters continuing from `idx`. -/
def specJoin (block : Str) : Nat → List Row → Str
  | _, [] => []
  | idx, a :: rest => specRenderItem block a (idx + 1) ++ specJoin block (idx + 1) rest

/-- Invariant: every row in any bucket comes from `rows`. -/
def BucketsFrom (m : List (String × List Row)) (rows : List Row) : Prop :=
  ∀ k b, assocLookup k m = some b → ∀ x ∈ b, x ∈ rows

/-! ## Concrete fixtures for witnesses and counterexamples -/

/-- A layout whose sort specification names an invalid field. -/
def cxSortLayout : Layout :=
  { active := "Yes", layout_name := "Stuff"
    layout_body := "\x7b\x7bRepeatBegin\x7d\x7d.\x7b\x7bRepeatEnd\x7d\x7d"
    layout_order := "bad-field ASC" }

/-- A well-formed layout processed after the failing one. -/
def cxPlainLayout : Layout :=
  { active := "Yes", layout_name := "Plain", layout_body := "B", layout_file := "p.xml" }

def cxRowA : Row :=
  [("article_id", "1"), ("heading", "x"), ("active", "Yes"), ("issue_date", "1")]

def cxRowB : Row :=
  [("article_id", "2"), ("heading", "y"), ("active", "Yes"), ("issue_date", "2")]

/-- A pre-existing mirror row for article 123. -/
def c4Row : Row :=
  [("article_id", "123"), ("heading", "old"), ("highlight1_flag", "Yes"), ("active", "Yes")]

/-- Article 123 with no flag fields set (every flag resolves to No). -/
def c4Data : Article := ⟨123, []⟩

/-- An article whose raw articlegroup1_flag is Yes. -/
def c7Data : Article := ⟨5, [("articlegroup1_flag", "Yes")]⟩

/-- An article carrying an explicit last_update_date different from the
clock value used at classification time. -/
def c8Data : Article := ⟨123, [("highlight1_flag", "Yes"), ("last_update_date", "999")]⟩

/-- Registry with Highlight1 active and capacity limit 1. -/
def w3Cfg : List Layout := [{ active := "Yes", layout_name := "Highlight1", layout_limit := 1 }]

/-- An existing member of the Highlight1 group (a different article). -/
def w3Other : Row := [("article_id", "7"), ("highlight1_flag", "Yes")]

def w3Data : Article := ⟨123, [("highlight1_flag", "Yes")]⟩

def w5Layout : Layout :=
  { active := "Yes", layout_name := "Highlight1"
    layout_body := "A:\x7b\x7bRepeatBegin\x7d\x7d[\x7b\x7bCounter\x7d\x7d-\x7b\x7bheading\x7d\x7d]\x7b\x7bRepeatEnd\x7d\x7d:Z" }

def w5Row1 : Row := [("article_id", "1"), ("heading", "one")]

def w5Row2 : Row := [("article_id", "2"), ("heading", "two")]

def w5Row3 : Row := [("article_id", "3"), ("heading", "three")]

def w6Test : CondTest := ⟨("priority").data, some ("=").data, some ("2").data⟩

def w6Block : CondBlock := ⟨w6Test, ("P!").data, [], ("Q!").data⟩

def w6Art : Row := [("article_id", "9"), ("priority", "2")]

def w10Active : Row := [("article_id", "1"), ("highlight1_flag", "Yes"), ("active", "Yes")]

def w10Inactive : Row := [("article_id", "2"), ("highlight1_flag", "Yes"), ("active", "No")]

def w10Store : List Row := [w10Active, w10Inactive]

/-! ## Lemmas and claim theorems -/

theorem processLayouts_append (cache : ArticlesCache) (l₁ l₂ : List Layout)
    (st : RenderState) :
    processLayouts cache (l₁ ++ l₂) st =
      (processLayouts cache l₁ st).bind (fun st' => processLayouts cache l₂ st') := by
  induction l₁ generalizing st with
  | nil => rfl
  | cons a as ih =>
    simp only [processLayouts, List.cons_append, List.foldlM_cons] at *
    cases processOneLayout cache st a with
    | error e => rfl
    | ok st2 => simpa using ih st2

/-- C1: for every content item and every behavior of the external stores,
the public hooks afterCreate, afterUpdate and afterDelete return their input
data unchanged — the catch blocks absorb any pipeline error, so the primary
content operation is unaffected. -/
theorem C1_hooks_never_throw (data : Article) (syncOutcome : Except String (List Row))
    (renderOutcome : Except String RenderResponse)
    (deleteOutcome : Except String (List Row)) :
    afterCreate data syncOutcome renderOutcome = data ∧
    afterUpdate data syncOutcome renderOutcome = data ∧
    afterDelete data deleteOutcome = data := by
  refine ⟨?_, ?_, ?_⟩ <;>
    cases syncOutcome <;> cases renderOutcome <;> cases deleteOutcome <;> rfl

/-- C9 counterexample: with the layout source missing, the rendering-side
loader does not return an empty registry — Article_layout_process fails with
the loader's thrown error, refuting the claim that both loaders degrade to
an empty registry and both callers complete. -/
theorem C9_cx_render_loader_throws :
    Article_layout_process none [] =
      Except.error "sys-system-layouts.json not found" := rfl

/-- C9 (amended): with the layout source missing, the classification-side
loader returns the empty registry and classification behaves exactly as with
no layouts configured, while the rendering-side loader throws
"sys-system-layouts.json not found" and Article_layout_process propagates
that error instead of degrading. -/
theorem C9_missing_source (store : List Row) (data : Article) (op : String) (now : Int) :
    getCachedLayoutConfigHooks none = ⟨[], []⟩ ∧
    syncToArticlesGroups none store data op now =
      syncToArticlesGroups (some []) store data op now ∧
    Article_layout_process none store =
      Except.error "sys-system-layouts.json not found" := by
  refine ⟨rfl, ?_, rfl⟩
  simp [syncToArticlesGroups, getCachedLayoutConfigHooks]

/-- C2 counterexample: a sort error in the first layout aborts the whole
render run with the thrown error — no per-layout error status is recorded
and the second (well-formed) layout is not rendered, refuting the per-layout
isolation claim. -/
theorem C2_cx_error_aborts :
    Article_layout_process (some [cxSortLayout, cxPlainLayout]) [cxRowA, cxRowB] =
      Except.error "Invalid field in layout_order: bad-field" := by decide

/-- C2 (amended): a template or sort error raised while processing one
layout is not isolated: it aborts the whole loop (the remaining layouts are
never processed and no result list is produced) and Article_layout_process
rethrows it to its caller. -/
theorem C2_error_propagates (cache : ArticlesCache) (pre rest : List Layout)
    (l : Layout) (st st' : RenderState) (e : String) (src : Option (List Layout))
    (store : List Row) (layouts : List Layout) :
    (processLayouts cache pre st = Except.ok st' →
      processOneLayout cache st' l = Except.error e →
      processLayouts cache (pre ++ l :: rest) st = Except.error e) ∧
    (renderGetCachedLayoutConfig src = Except.ok layouts →
      processLayouts (getCachedArticles store) layouts ⟨[], [], []⟩ = Except.error e →
      Article_layout_process src store = Except.error e) := by
  constructor
  · intro h1 h2
    rw [processLayouts_append, h1]
    simp only [Except.bind, processLayouts, List.foldlM_cons, h2]
    rfl
  · intro h1 h2
    have hform : Article_layout_process src store =
        (processLayouts (getCachedArticles store) layouts ⟨[], [], []⟩).bind
          (fun st => Except.ok { status := "success", details := st.results
                                 combinedJs := st.combinedJs, r2Ops := st.r2Ops }) := by
      unfold Article_layout_process
      rw [h1]
      rfl
    rw [hform, h2]
    rfl

/-- C2 witness: instantiating the abort theorem at the concrete failing
configuration. -/
theorem C2_error_propagates_witness :
    processLayouts (getCachedArticles [cxRowA, cxRowB])
      ([] ++ cxSortLayout :: [cxPlainLayout]) ⟨[], [], []⟩ =
      Except.error "Invalid field in layout_order: bad-field" :=
  (C2_error_propagates (getCachedArticles [cxRowA, cxRowB]) [] [cxPlainLayout]
      cxSortLayout ⟨[], [], []⟩ ⟨[], [], []⟩ "Invalid field in layout_order: bad-field"
      none [] []).1 (by decide) (by decide)

/-- C7 counterexample: with no active ArticleGroup1 layout in the registry,
an item whose raw articlegroup1_flag is Yes resolves to Yes (the raw value
is kept), not to No as the claim states. -/
theorem C7_cx_no_layout_keeps_raw :
    flagValueOf (syncFlags [] (getCachedLayoutConfigHooks (some [])) c7Data).articleGroupFlags
      "articlegroup1_flag" = "Yes" := by decide

/-- C7 (amended): when no active layout exists for group N the flag keeps
the item's raw value (defaulting to No only when that value is absent or
blank); when an active layout exists, the flag resolves to No immediately
exactly when the where_clause fails to match, and an absent where_clause
counts as a match. -/
theorem C7_group_candidacy (reg : LayoutRegistry) (data : Article) (i : Nat)
    (L : Layout) :
    (reg.activeArticleGroups.find? (fun l => l.layout_name = "ArticleGroup" ++ toString i) = none →
      groupDecision reg data i = FlagDecision.direct (jsOr (getFieldD data (agFlagName i) "") "No")) ∧
    (reg.activeArticleGroups.find? (fun l => l.layout_name = "ArticleGroup" ++ toString i) = some L →
      (groupDecision reg data i = FlagDecision.direct "No" ↔ whereClauseIncludes data L = false)) ∧
    (L.where_clause = "" → whereClauseIncludes data L = true) := by
  refine ⟨?_, ?_, ?_⟩
  · intro h; simp [groupDecision, h]
  · intro h
    simp only [groupDecision, h]
    by_cases hw : whereClauseIncludes data L = true
    · by_cases hl : L.layout_limit > 0 <;> simp [hw, hl]
    · simp only [Bool.not_eq_true] at hw
      simp [hw]
  · intro h; simp [whereClauseIncludes, h]

/-- C7 witness: both branches of the amended theorem at concrete inputs —
no active ArticleGroup1 layout leaves the raw Yes in place, and a layout
with a failing where_clause resolves to No. -/
theorem C7_group_candidacy_witness :
    groupDecision (getCachedLayoutConfigHooks (some [])) c7Data 1 =
      FlagDecision.direct "Yes" ∧
    groupDecision
      (getCachedLayoutConfigHooks
        (some [{ active := "Yes", layout_name := "ArticleGroup1", where_clause := "0=1" }]))
      c7Data 1 = FlagDecision.direct "No" := by
  constructor
  · have h := (C7_group_candidacy (getCachedLayoutConfigHooks (some [])) c7Data 1
      { active := "Yes" }).1 (by decide)
    rw [h]; decide
  · have h := (C7_group_candidacy
      (getCachedLayoutConfigHooks
        (some [{ active := "Yes", layout_name := "ArticleGroup1", where_clause := "0=1" }]))
      c7Data 1
      { active := "Yes", layout_name := "ArticleGroup1", where_clause := "0=1" }).2.1
      (by decide)
    exact h.mpr (by decide)

/-- C4 counterexample: a create-operation classification that resolves every
flag to No leaves a pre-existing mirror row for the same article id in
place (the create path skips insertion but performs no delete), so a
MirrorRecord for the item still exists after the call. -/
theorem C4_cx_create_skips_delete :
    syncToArticlesGroups (some []) [c4Row] c4Data "create" 0 = [c4Row] ∧
    rowId c4Row = 123 ∧ c4Data.article_id = 123 := by
  refine ⟨by decide, by decide, rfl⟩

/-- C4 (amended): when every resolved flag is No, the update path deletes
every mirror row of the item (the invariant holds after updates), while the
create path returns the store unchanged — it skips insertion but does not
delete a pre-existing row. -/
theorem C4_all_no_paths (src : Option (List Layout)) (store : List Row)
    (data : Article) (now : Int) (h0 : data.article_id ≠ 0)
    (hH : hasAnyYes (syncFlags store (getCachedLayoutConfigHooks src) data).highlightFlags = false)
    (hG : hasAnyYes (syncFlags store (getCachedLayoutConfigHooks src) data).articleGroupFlags = false) :
    syncToArticlesGroups src store data "update" now =
      store.filter (fun r => rowId r != data.article_id) ∧
    (∀ r ∈ syncToArticlesGroups src store data "update" now, rowId r ≠ data.article_id) ∧
    syncToArticlesGroups src store data "create" now = store := by
  have hupd : syncToArticlesGroups src store data "update" now =
      store.filter (fun r => rowId r != data.article_id) := by
    simp [syncToArticlesGroups, h0, hH, hG]
  refine ⟨hupd, ?_, ?_⟩
  · intro r hr
    rw [hupd] at hr
    have := List.of_mem_filter hr
    simpa using this
  · simp [syncToArticlesGroups, h0, hH, hG]

theorem mem_insertByIssueDate (x y : Row) (l : List Row) :
    x ∈ insertByIssueDate y l ↔ x = y ∨ x ∈ l := by
  induction l with
  | nil => simp [insertByIssueDate]
  | cons a as ih =>
    simp only [insertByIssueDate]
    split
    · simp
    · simp only [List.mem_cons, ih]
      tauto

theorem mem_orderByIssueDateDesc (x : Row) (l : List Row) :
    x ∈ orderByIssueDateDesc l ↔ x ∈ l := by
  have key : ∀ (l : List Row) (acc : List Row),
      (x ∈ l.foldl (fun acc y => insertByIssueDate y acc) acc ↔ x ∈ acc ∨ x ∈ l) := by
    intro l
    induction l with
    | nil => simp
    | cons a as ih =>
      intro acc
      simp only [List.foldl_cons, ih, mem_insertByIssueDate, List.mem_cons]
      tauto
  simpa [orderByIssueDateDesc] using key l []

theorem assocLookup_append {b : Type} (l₁ l₂ : List (String × b)) (k : String) :
    assocLookup k (l₁ ++ l₂) =
      ((assocLookup k l₁).orElse (fun _ => assocLookup k l₂)) := by
  induction l₁ with
  | nil => simp [assocLookup]
  | cons a as ih =>
    simp only [List.cons_append, assocLookup]
    split <;> simp [ih, Option.orElse]

theorem lookup_bucket_map (m : List (String × List Row)) (k k' : String) (r : Row)
    (b' : List Row)
    (h : assocLookup k' (m.map (fun p => if p.1 = k then (p.1, p.2 ++ [r]) else p)) = some b') :
    ∃ b, assocLookup k' m = some b ∧ (b' = b ∨ b' = b ++ [r]) := by
  induction m with
  | nil => simp [assocLookup] at h
  | cons a as ih =>
    simp only [List.map_cons] at h
    by_cases hk : a.1 = k
    · rw [if_pos hk] at h
      by_cases hk' : a.1 = k'
      · rw [show assocLookup k' ((a.1, a.2 ++ [r]) :: List.map (fun p => if p.1 = k then (p.1, p.2 ++ [r]) else p) as) = some (a.2 ++ [r]) from by simp [assocLookup, hk']] at h
        refine ⟨a.2, ?_, Or.inr (Option.some.inj h).symm⟩
        simp [assocLookup, hk']
      · rw [show assocLookup k' ((a.1, a.2 ++ [r]) :: List.map (fun p => if p.1 = k then (p.1, p.2 ++ [r]) else p) as) = assocLookup k' (List.map (fun p => if p.1 = k then (p.1, p.2 ++ [r]) else p) as) from by simp [assocLookup, hk']] at h
        obtain ⟨b, hb, hc⟩ := ih h
        exact ⟨b, by simpa [assocLookup, hk'] using hb, hc⟩
    · rw [if_neg hk] at h
      by_cases hk' : a.1 = k'
      · rw [show assocLookup k' (a :: List.map (fun p => if p.1 = k then (p.1, p.2 ++ [r]) else p) as) = some a.2 from by simp [assocLookup, hk']] at h
        refine ⟨a.2, ?_, Or.inl (Option.some.inj h).symm⟩
        simp [assocLookup, hk']
      · rw [show assocLookup k' (a :: List.map (fun p => if p.1 = k then (p.1, p.2 ++ [r]) else p) as) = assocLookup k' (List.map (fun p => if p.1 = k then (p.1, p.2 ++ [r]) else p) as) from by simp [assocLookup, hk']] at h
        obtain ⟨b, hb, hc⟩ := ih h
        exact ⟨b, by simpa [assocLookup, hk'] using hb, hc⟩

theorem addToBucket_mem (m : List (String × List Row)) (k k' : String) (r x : Row)
    (b' : List Row) (h : assocLookup k' (addToBucket m k r) = some b') (hx : x ∈ b') :
    (∃ b, assocLookup k' m = some b ∧ x ∈ b) ∨ x = r := by
  unfold addToBucket at h
  split at h
  · obtain ⟨b, hb, hcase⟩ := lookup_bucket_map m k k' r b' h
    rcases hcase with hc | hc
    · exact Or.inl ⟨b, hb, hc ▸ hx⟩
    · subst hc
      rcases List.mem_append.mp hx with hxb | hxr
      · exact Or.inl ⟨b, hb, hxb⟩
      · exact Or.inr (by simpa using hxr)
  · rw [assocLookup_append] at h
    cases hm : assocLookup k' m with
    | some b =>
      rw [hm] at h
      simp only [Option.orElse, Option.some_orElse] at h
      exact Or.inl ⟨b, rfl, (Option.some.inj h) ▸ hx⟩
    | none =>
      rw [hm] at h
      simp only [Option.orElse, Option.none_orElse, assocLookup] at h
      split at h
      · have hb : b' = [r] := (Option.some.inj h).symm
        subst hb
        exact Or.inr (by simpa using hx)
      · simp [assocLookup] at h

theorem bucketsFrom_addToBucket {m : List (String × List Row)} {rows : List Row}
    (hinv : BucketsFrom m rows) {r : Row} (hr : r ∈ rows) (k : String) :
    BucketsFrom (addToBucket m k r) rows := by
  intro k' b' hb' x hx
  rcases addToBucket_mem m k k' r x b' hb' hx with ⟨b, hb, hxb⟩ | hxr
  · exact hinv k' b hb x hxb
  · exact hxr ▸ hr

theorem bucketsFrom_foldl_keys {rows : List Row} {r : Row} (hr : r ∈ rows) :
    ∀ (ks : List String) (m : List (String × List Row)), BucketsFrom m rows →
      BucketsFrom (ks.foldl (fun m2 k => addToBucket m2 k r) m) rows := by
  intro ks
  induction ks with
  | nil => intro m h; simpa using h
  | cons k ks ih =>
    intro m h
    simpa using ih (addToBucket m k r) (bucketsFrom_addToBucket h hr k)

theorem bucketsFrom_buildByHighlight (rows : List Row) :
    BucketsFrom (buildByHighlight rows) rows := by
  have main : ∀ (l : List Row) (m : List (String × List Row)),
      (∀ x ∈ l, x ∈ rows) → BucketsFrom m rows →
      BucketsFrom (l.foldl (fun m r => (rowFlagBuckets r).foldl (fun m2 k => addToBucket m2 k r) m) m) rows := by
    intro l
    induction l with
    | nil => intro m _ h; simpa using h
    | cons a as ih =>
      intro m hsub h
      have ha : a ∈ rows := hsub a (List.mem_cons_self a as)
      have hsub' : ∀ x ∈ as, x ∈ rows := fun x hx => hsub x (List.mem_cons_of_mem a hx)
      simpa using ih _ hsub' (bucketsFrom_foldl_keys ha (rowFlagBuckets a) m h)
  have := main rows [] (fun x hx => hx) (by intro k b hb; simp [assocLookup] at hb)
  simpa [buildByHighlight] using this

/-- C10: the rendering item set contains only mirror rows whose active
column is exactly Yes — a row with any other active value appears neither in
the full cached list nor in any by-flag bucket, so no layout renders it. -/
theorem C10_only_active_cached (store : List Row) (r : Row) (hmem : r ∈ store)
    (hact : getCol r "active" ≠ some "Yes") :
    r ∉ (getCachedArticles store).all ∧
    (∀ f b, assocLookup f (getCachedArticles store).byHighlight = some b → r ∉ b) := by
  have hall : r ∉ (getCachedArticles store).all := by
    intro hr
    simp only [getCachedArticles] at hr
    rw [mem_orderByIssueDateDesc] at hr
    have := List.of_mem_filter hr
    exact hact (by simpa using this)
  refine ⟨hall, ?_⟩
  intro f b hb hrb
  have hfrom := bucketsFrom_buildByHighlight
    (orderByIssueDateDesc (store.filter (fun r => getCol r "active" == some "Yes")))
  have : r ∈ orderByIssueDateDesc (store.filter (fun r => getCol r "active" == some "Yes")) :=
    hfrom f b (by simpa [getCachedArticles] using hb) r hrb
  exact hall (by simpa [getCachedArticles] using this)

/-- C10 witness: a concrete store with one inactive flagged row — the row is
absent from the cached list. -/
theorem C10_only_active_cached_witness :
    w10Inactive ∉ (getCachedArticles w10Store).all :=
  (C10_only_active_cached w10Store w10Inactive (by decide) (by decide)).1

/-- C6: during repeat-block iteration, a matched If or ElseIf branch whose
comparison value parses as a number replaces the effective limit with that
number (independently of the incoming limit, so later writes supersede
earlier ones); the scanner threads the overridden limit into the remaining
blocks of the item, and the loop stops as soon as the number of items
rendered reaches the current effective limit. -/
theorem C6_limit_override (art : Row) (cb : CondBlock) (L L' : Int) (v : Str) (n : Int)
    (block : Str) (rest : List Row) (idx : Nat) (s : Str) (fuel i : Nat)
    (cbr : CondBlock × Str) :
    (checkCondition art cb.test = true → cb.test.val = some v →
      jsNumOf (String.mk v) = some n →
      (evalCondBlock art cb L).1 = cb.ifContent ∧ (evalCondBlock art cb L).2 = n ∧
      (evalCondBlock art cb L').2 = (evalCondBlock art cb L).2) ∧
    (∀ t c, checkCondition art cb.test = false →
      findElseIfMatch art cb.elseIfs.dropLast = some (t, c) → t.val = some v →
      jsNumOf (String.mk v) = some n →
      (evalCondBlock art cb L).1 = c ∧ (evalCondBlock art cb L).2 = n) ∧
    (ciIndexOf? s ifMarker = some i →
      parseCondAt (List.drop (i + ifMarker.length) s) = some cbr →
      renderCondsF (fuel + 1) art s L =
        (s.take i ++ (evalCondBlock art cbr.1 L).1 ++
          (renderCondsF fuel art cbr.2 (evalCondBlock art cbr.1 L).2).1,
         (renderCondsF fuel art cbr.2 (evalCondBlock art cbr.1 L).2).2)) ∧
    (((idx + 1 : Nat) : Int) ≥ (renderItem block art (idx + 1) L).2 →
      renderLoop block L idx (art :: rest) = (renderItem block art (idx + 1) L).1) ∧
    (((idx + 1 : Nat) : Int) < (renderItem block art (idx + 1) L).2 →
      renderLoop block L idx (art :: rest) =
        (renderItem block art (idx + 1) L).1 ++
          renderLoop block (renderItem block art (idx + 1) L).2 (idx + 1) rest) := by
  refine ⟨?_, ?_, ?_, ?_, ?_⟩
  · intro hc hv hn
    simp [evalCondBlock, hc, overrideLimit, hv, hn]
  · intro t c hc hfind hv hn
    simp [evalCondBlock, hc, hfind, overrideLimit, hv, hn]
  · intro hidx hparse
    simp only [renderCondsF, hidx, hparse]
  · intro hge
    simp only [renderLoop]
    rw [if_pos hge, List.append_nil]
  · intro hlt
    simp only [renderLoop]
    rw [if_neg (Int.not_le.mpr hlt)]

/-- C6 witness: a concrete matched numeric If branch replaces an incoming
limit of 99 by the value 2 and selects the If content. -/
theorem C6_limit_override_witness :
    (evalCondBlock w6Art w6Block 99).1 = ("P!").data ∧
    (evalCondBlock w6Art w6Block 99).2 = 2 := by
  have h := (C6_limit_override w6Art w6Block 99 0 (("2").data) 2 [] [] 0 [] 0 0
    ⟨w6Block, []⟩).1 (by decide) (by decide) (by decide)
  exact ⟨h.1, h.2.1⟩

theorem renderCondsF_no_if (s : Str) (hNoIf : ciIndexOf? s ifMarker = none) :
    ∀ (fuel : Nat) (art : Row) (L : Int), renderCondsF fuel art s L = (s, L) := by
  intro fuel art L
  cases fuel with
  | zero => rfl
  | succ fuel => simp [renderCondsF, hNoIf]

theorem renderLoop_take (block : Str) (hNoIf : ciIndexOf? block ifMarker = none) :
    ∀ (arts : List Row) (idx Lmax : Nat), idx < Lmax →
      renderLoop block (Lmax : Int) idx arts = specJoin block idx (arts.take (Lmax - idx)) := by
  intro arts
  induction arts with
  | nil => intro idx Lmax _; simp [renderLoop, specJoin]
  | cons a rest ih =>
    intro idx Lmax hlt
    have hitem : renderItem block a (idx + 1) (Lmax : Int) =
        (specRenderItem block a (idx + 1), (Lmax : Int)) := by
      simp [renderItem, renderConds, renderCondsF_no_if block hNoIf, specRenderItem]
    simp only [renderLoop, hitem]
    by_cases hstop : idx + 1 ≥ Lmax
    · have hL : Lmax - idx = 1 := by omega
      rw [if_pos (by exact_mod_cast hstop)]
      simp [hL, specJoin]
    · have hL : Lmax - idx = (Lmax - (idx + 1)) + 1 := by omega
      rw [if_neg (by exact_mod_cast hstop)]
      rw [ih (idx + 1) Lmax (by omega), hL]
      simp [specJoin, List.take_succ_cons]

/-- C5: for a layout whose (display-name-substituted) template decomposes as
prefix, RepeatBegin, block, RepeatEnd, suffix — with the markers found at
those positions and no conditional inside the block — the rendered output is
the prefix verbatim, then one substituted copy of the block per selected
item in order with the 1-based Counter, up to the effective limit (all items
for the default limit 0, the first `layout_limit` items otherwise), then the
suffix verbatim. -/
theorem C5_repeat_block_render (layout : Layout) (articles : List Row)
    (before block after : Str)
    (htpl : replaceAll displayNameMarker layout.layout_display_name.data layout.layout_body.data
      = before ++ repeatBeginMarker ++ block ++ repeatEndMarker ++ after)
    (hb : strIndexOf? (before ++ repeatBeginMarker ++ block ++ repeatEndMarker ++ after)
      repeatBeginMarker = some before.length)
    (he : strIndexOf? (before ++ repeatBeginMarker ++ block ++ repeatEndMarker ++ after)
      repeatEndMarker = some (before.length + repeatBeginMarker.length + block.length))
    (hNoIf : ciIndexOf? block ifMarker = none)
    (hlim : layout.layout_limit ≥ 0) :
    renderTemplate layout articles =
      before ++
        specJoin block 0
          (if layout.layout_limit = 0 then articles
           else articles.take layout.layout_limit.toNat) ++
        after := by
  have hbefore : jsSubstring
      (before ++ repeatBeginMarker ++ block ++ repeatEndMarker ++ after) 0 before.length
      = before := by
    have h1 : min 0 before.length = 0 := Nat.min_eq_left (Nat.zero_le _)
    have h2 : max 0 before.length = before.length := Nat.max_eq_right (Nat.zero_le _)
    simp only [jsSubstring, h1, h2, List.drop_zero, Nat.sub_zero, List.append_assoc]
    exact List.take_left _ _
  have hblock : jsSubstring
      (before ++ repeatBeginMarker ++ block ++ repeatEndMarker ++ after)
      (before.length + repeatBeginMarker.length)
      (before.length + repeatBeginMarker.length + block.length) = block := by
    have hmin : min (before.length + repeatBeginMarker.length)
        (before.length + repeatBeginMarker.length + block.length) =
        before.length + repeatBeginMarker.length := Nat.min_eq_left (by omega)
    have hmax : max (before.length + repeatBeginMarker.length)
        (before.length + repeatBeginMarker.length + block.length) =
        before.length + repeatBeginMarker.length + block.length :=
      Nat.max_eq_right (by omega)
    simp only [jsSubstring, hmin, hmax]
    have hdrop : (before ++ repeatBeginMarker ++ block ++ repeatEndMarker ++ after).drop
        (before.length + repeatBeginMarker.length) = block ++ repeatEndMarker ++ after := by
      have : before ++ repeatBeginMarker ++ block ++ repeatEndMarker ++ after =
          (before ++ repeatBeginMarker) ++ (block ++ repeatEndMarker ++ after) := by
        simp [List.append_assoc]
      rw [this, show before.length + repeatBeginMarker.length =
        (before ++ repeatBeginMarker).length from (List.length_append _ _).symm,
        List.drop_left]
    rw [hdrop]
    have : before.length + repeatBeginMarker.length + block.length -
        (before.length + repeatBeginMarker.length) = block.length := by omega
    rw [this, List.append_assoc, List.take_left]
  have hafter : (before ++ repeatBeginMarker ++ block ++ repeatEndMarker ++ after).drop
      (before.length + repeatBeginMarker.length + block.length + repeatEndMarker.length)
      = after := by
    have hassoc : before ++ repeatBeginMarker ++ block ++ repeatEndMarker ++ after =
        (before ++ repeatBeginMarker ++ block ++ repeatEndMarker) ++ after := by
      simp [List.append_assoc]
    have hlen : before.length + repeatBeginMarker.length + block.length +
        repeatEndMarker.length =
        (before ++ repeatBeginMarker ++ block ++ repeatEndMarker).length := by
      simp [List.length_append]
      omega
    rw [hassoc, hlen, List.drop_left]
  simp only [renderTemplate]
  rw [htpl, hb, he]
  simp only [hbefore, hblock, hafter]
  by_cases h0 : layout.layout_limit = 0
  · rw [if_pos h0]
    simp only [h0, ne_eq, not_true_eq_false, if_neg, ite_false]
    cases articles with
    | nil => simp [renderLoop, specJoin]
    | cons a rest =>
      have := renderLoop_take block hNoIf (a :: rest) 0 (a :: rest).length
        (by simp)
      simpa using this
  · rw [if_neg h0]
    have hpos : layout.layout_limit > 0 := lt_of_le_of_ne hlim (Ne.symm h0)
    rw [if_pos h0]
    have hcast : ((layout.layout_limit.toNat : Nat) : Int) = layout.layout_limit :=
      Int.toNat_of_nonneg hlim
    have := renderLoop_take block hNoIf articles 0 layout.layout_limit.toNat
      (by omega)
    rw [← hcast, this]
    simp only [Nat.sub_zero]
    congr 2

/-- C5 witness: the three-item example — the rendered output is the prefix,
three substituted copies with counters 1..3 in list order, and the suffix. -/
theorem C5_repeat_block_render_witness :
    renderTemplate w5Layout [w5Row1, w5Row2, w5Row3] =
      ("A:").data ++
        specJoin ("[\x7b\x7bCounter\x7d\x7d-\x7b\x7bheading\x7d\x7d]").data 0
          [w5Row1, w5Row2, w5Row3] ++ (":Z").data ∧
    renderTemplate w5Layout [w5Row1, w5Row2, w5Row3] =
      ("A:[1-one][2-two][3-three]:Z").data := by
  have h := C5_repeat_block_render w5Layout [w5Row1, w5Row2, w5Row3]
    (("A:").data) (("[\x7b\x7bCounter\x7d\x7d-\x7b\x7bheading\x7d\x7d]").data) ((":Z").data)
    (by decide) (by decide) (by decide) (by decide) (by decide)
  refine ⟨by simpa using h, ?_⟩
  rw [show renderTemplate w5Layout [w5Row1, w5Row2, w5Row3] =
    ("A:").data ++
      specJoin ("[\x7b\x7bCounter\x7d\x7d-\x7b\x7bheading\x7d\x7d]").data 0
        [w5Row1, w5Row2, w5Row3] ++ (":Z").data from by simpa using h]
  decide

theorem filterMap_map_sublist {α β γ : Type} (f : α → Option β) (g : β → γ) (h : α → γ)
    (H : ∀ a b, f a = some b → g b = h a) (l : List α) :
    ((l.filterMap f).map g).Sublist (l.map h) := by
  induction l with
  | nil => simp
  | cons a as ih =>
    cases hf : f a with
    | none =>
      simp only [List.filterMap_cons, hf, List.map_cons]
      exact ih.cons _
    | some b =>
      simp only [List.filterMap_cons, hf, List.map_cons, H a b hf]
      exact ih.cons₂ _

theorem assocLookup_of_mem_nodup {b : Type} (l : List (String × b)) (p : String × b)
    (hmem : p ∈ l) (hnd : (l.map Prod.fst).Nodup) : assocLookup p.1 l = some p.2 := by
  induction l with
  | nil => cases hmem
  | cons a rest ih =>
    rcases List.mem_cons.mp hmem with rfl | hmem2
    · simp [assocLookup]
    · have hnd' := hnd
      rw [List.map_cons] at hnd'
      have hcons := List.nodup_cons.mp hnd'
      have hne : a.1 ≠ p.1 := fun hc => hcons.1 (hc ▸ List.mem_map_of_mem Prod.fst hmem2)
      simp only [assocLookup, if_neg hne]
      exact ih hmem2 hcons.2

theorem assocLookup_map_of_mem {α b : Type} (name : α → String) (val : α → b)
    (l : List α) (e : α) (hmem : e ∈ l) (hnd : (l.map name).Nodup) :
    assocLookup (name e) (l.map (fun x => (name x, val x))) = some (val e) := by
  induction l with
  | nil => cases hmem
  | cons a rest ih =>
    rcases List.mem_cons.mp hmem with rfl | hmem2
    · simp [assocLookup]
    · have hnd' := hnd
      rw [List.map_cons] at hnd'
      have hcons := List.nodup_cons.mp hnd'
      have hne : name a ≠ name e := fun hc => hcons.1 (hc ▸ List.mem_map_of_mem name hmem2)
      simp only [List.map_cons, assocLookup, if_neg hne]
      exact ih hmem2 hcons.2

theorem assocLookup_eq_none {b : Type} (l : List (String × b)) (k : String)
    (h : k ∉ l.map Prod.fst) : assocLookup k l = none := by
  induction l with
  | nil => rfl
  | cons a rest ih =>
    have hne : a.1 ≠ k := fun hc => h (by rw [List.map_cons]; exact hc ▸ List.mem_cons_self _ _)
    simp only [assocLookup, if_neg hne]
    exact ih (fun hc => h (by rw [List.map_cons]; exact List.mem_cons_of_mem _ hc))

theorem hlDirect_names_sublist (reg : LayoutRegistry) (data : Article) :
    ((collectHighlightDirect reg data).map Prod.fst).Sublist (flagIdx.map hlFlagName) := by
  unfold collectHighlightDirect
  apply filterMap_map_sublist
  intro a b hb
  cases hd : highlightDecision reg data a with
  | direct v => rw [hd] at hb; cases hb; rfl
  | check l => rw [hd] at hb; cases hb

theorem hlCheck_names_sublist (reg : LayoutRegistry) (data : Article) :
    ((collectHighlightCheck reg data).map (fun e => e.flagName)).Sublist
      (flagIdx.map hlFlagName) := by
  unfold collectHighlightCheck
  apply filterMap_map_sublist
  intro a b hb
  cases hd : highlightDecision reg data a with
  | direct v => rw [hd] at hb; cases hb
  | check l => rw [hd] at hb; cases hb; rfl

theorem agDirect_names_sublist (reg : LayoutRegistry) (data : Article) :
    ((collectGroupDirect reg data).map Prod.fst).Sublist (flagIdx.map agFlagName) := by
  unfold collectGroupDirect
  apply filterMap_map_sublist
  intro a b hb
  cases hd : groupDecision reg data a with
  | direct v => rw [hd] at hb; cases hb; rfl
  | check l => rw [hd] at hb; cases hb

theorem agCheck_names_sublist (reg : LayoutRegistry) (data : Article) :
    ((collectGroupCheck reg data).map (fun e => e.flagName)).Sublist
      (flagIdx.map agFlagName) := by
  unfold collectGroupCheck
  apply filterMap_map_sublist
  intro a b hb
  cases hd : groupDecision reg data a with
  | direct v => rw [hd] at hb; cases hb
  | check l => rw [hd] at hb; cases hb; rfl

theorem toCheck_names_nodup (reg : LayoutRegistry) (data : Article) :
    (((collectHighlightCheck reg data ++ collectGroupCheck reg data)).map
      (fun e => e.flagName)).Nodup := by
  rw [List.map_append]
  exact List.Nodup.sublist
    ((hlCheck_names_sublist reg data).append (agCheck_names_sublist reg data))
    (by decide)

theorem syncFlags_highlight_value (store : List Row) (reg : LayoutRegistry)
    (data : Article) (i : Nat) (hi : i ∈ flagIdx) :
    flagValueOf (syncFlags store reg data).highlightFlags (hlFlagName i) =
      (match highlightDecision reg data i with
       | FlagDecision.direct v => v
       | FlagDecision.check L =>
         if L.layout_limit ≤ 0 ∨
            (countOthers store (hlFlagName i) data.article_id : Int) < L.layout_limit
         then "Yes" else "No") := by
  have hfield : (syncFlags store reg data).highlightFlags =
      collectHighlightDirect reg data ++
        ((collectHighlightCheck reg data ++ collectGroupCheck reg data).filter
          (fun e => e.isHighlight)).map
          (fun e => (e.flagName,
            applyLimitResult
              (checkMultipleLayoutLimits store
                (collectHighlightCheck reg data ++ collectGroupCheck reg data)
                data.article_id) e.flagName)) := rfl
  cases hd : highlightDecision reg data i with
  | direct v =>
    have hmem : (hlFlagName i, v) ∈ collectHighlightDirect reg data := by
      unfold collectHighlightDirect
      exact List.mem_filterMap.mpr ⟨i, hi, by rw [hd]⟩
    have hnd : ((collectHighlightDirect reg data).map Prod.fst).Nodup :=
      List.Nodup.sublist (hlDirect_names_sublist reg data) (by decide)
    have hlook : assocLookup (hlFlagName i) (collectHighlightDirect reg data) = some v :=
      assocLookup_of_mem_nodup _ _ hmem hnd
    unfold flagValueOf
    rw [hfield, assocLookup_append, hlook]
    rfl
  | check L =>
    have hinj : ∀ a ∈ flagIdx, ∀ b ∈ flagIdx, hlFlagName a = hlFlagName b → a = b := by decide
    have hnotin : hlFlagName i ∉ (collectHighlightDirect reg data).map Prod.fst := by
      intro hc
      obtain ⟨p, hp, hfst⟩ := List.mem_map.mp hc
      obtain ⟨j, hj, hfj⟩ := List.mem_filterMap.mp hp
      cases hdj : highlightDecision reg data j with
      | direct w =>
        rw [hdj] at hfj
        cases hfj
        have hij := hinj j hj i hi hfst
        rw [hij] at hdj
        rw [hdj] at hd
        cases hd
      | check l => rw [hdj] at hfj; cases hfj
    have hlookA : assocLookup (hlFlagName i) (collectHighlightDirect reg data) = none :=
      assocLookup_eq_none _ _ hnotin
    have hmemCheck : (⟨hlFlagName i, L, true⟩ : CheckEntry) ∈ collectHighlightCheck reg data := by
      unfold collectHighlightCheck
      exact List.mem_filterMap.mpr ⟨i, hi, by rw [hd]⟩
    have hmemFilter : (⟨hlFlagName i, L, true⟩ : CheckEntry) ∈
        (collectHighlightCheck reg data ++ collectGroupCheck reg data).filter
          (fun e => e.isHighlight) :=
      List.mem_filter.mpr ⟨List.mem_append_left _ hmemCheck, rfl⟩
    have hndF : (((collectHighlightCheck reg data ++ collectGroupCheck reg data).filter
        (fun e => e.isHighlight)).map (fun e => e.flagName)).Nodup :=
      List.Nodup.sublist (List.Sublist.map _ (List.filter_sublist _))
        (toCheck_names_nodup reg data)
    have hres : assocLookup (hlFlagName i)
        (checkMultipleLayoutLimits store
          (collectHighlightCheck reg data ++ collectGroupCheck reg data) data.article_id) =
        some { count := (countOthers store (hlFlagName i) data.article_id : Int)
               limit := L.layout_limit
               withinLimit := decide (L.layout_limit ≤ 0) ||
                 decide ((countOthers store (hlFlagName i) data.article_id : Int) < L.layout_limit) } := by
      have := assocLookup_map_of_mem (fun e : CheckEntry => e.flagName)
        (fun e => ({ count := (countOthers store e.flagName data.article_id : Int)
                     limit := e.layout.layout_limit
                     withinLimit := decide (e.layout.layout_limit ≤ 0) ||
                       decide ((countOthers store e.flagName data.article_id : Int) <
                         e.layout.layout_limit) } : LimitResult))
        (collectHighlightCheck reg data ++ collectGroupCheck reg data)
        (⟨hlFlagName i, L, true⟩ : CheckEntry)
        (List.mem_append_left _ hmemCheck) (toCheck_names_nodup reg data)
      exact this
    have hlookB : assocLookup (hlFlagName i)
        (((collectHighlightCheck reg data ++ collectGroupCheck reg data).filter
          (fun e => e.isHighlight)).map
          (fun e => (e.flagName,
            applyLimitResult
              (checkMultipleLayoutLimits store
                (collectHighlightCheck reg data ++ collectGroupCheck reg data)
                data.article_id) e.flagName))) =
        some (applyLimitResult
          (checkMultipleLayoutLimits store
            (collectHighlightCheck reg data ++ collectGroupCheck reg data)
            data.article_id) (hlFlagName i)) := by
      have := assocLookup_map_of_mem (fun e : CheckEntry => e.flagName)
        (fun e => applyLimitResult
          (checkMultipleLayoutLimits store
            (collectHighlightCheck reg data ++ collectGroupCheck reg data)
            data.article_id) e.flagName)
        ((collectHighlightCheck reg data ++ collectGroupCheck reg data).filter
          (fun e => e.isHighlight))
        (⟨hlFlagName i, L, true⟩ : CheckEntry) hmemFilter hndF
      exact this
    unfold flagValueOf
    rw [hfield, assocLookup_append, hlookA]
    simp only [Option.orElse, Option.none_orElse]
    rw [hlookB]
    simp only [Option.getD_some]
    rw [applyLimitResult, hres]
    by_cases hcond : L.layout_limit ≤ 0 ∨
        (countOthers store (hlFlagName i) data.article_id : Int) < L.layout_limit
    · rw [if_pos hcond]
      have : (decide (L.layout_limit ≤ 0) ||
          decide ((countOthers store (hlFlagName i) data.article_id : Int) < L.layout_limit)) =
          true := by
        rcases hcond with h | h <;> simp [h]
      simp [this]
    · rw [if_neg hcond]
      push_neg at hcond
      have : (decide (L.layout_limit ≤ 0) ||
          decide ((countOthers store (hlFlagName i) data.article_id : Int) < L.layout_limit)) =
          false := by
        simp [hcond.1, hcond.2, not_le, not_lt]
      simp [this]

theorem syncFlags_group_value (store : List Row) (reg : LayoutRegistry)
    (data : Article) (i : Nat) (hi : i ∈ flagIdx) :
    flagValueOf (syncFlags store reg data).articleGroupFlags (agFlagName i) =
      (match groupDecision reg data i with
       | FlagDecision.direct v => v
       | FlagDecision.check L =>
         if L.layout_limit ≤ 0 ∨
            (countOthers store (agFlagName i) data.article_id : Int) < L.layout_limit
         then "Yes" else "No") := by
  have hfield : (syncFlags store reg data).articleGroupFlags =
      collectGroupDirect reg data ++
        ((collectHighlightCheck reg data ++ collectGroupCheck reg data).filter
          (fun e => !e.isHighlight)).map
          (fun e => (e.flagName,
            applyLimitResult
              (checkMultipleLayoutLimits store
                (collectHighlightCheck reg data ++ collectGroupCheck reg data)
                data.article_id) e.flagName)) := rfl
  cases hd : groupDecision reg data i with
  | direct v =>
    have hmem : (agFlagName i, v) ∈ collectGroupDirect reg data := by
      unfold collectGroupDirect
      exact List.mem_filterMap.mpr ⟨i, hi, by rw [hd]⟩
    have hnd : ((collectGroupDirect reg data).map Prod.fst).Nodup :=
      List.Nodup.sublist (agDirect_names_sublist reg data) (by decide)
    have hlook : assocLookup (agFlagName i) (collectGroupDirect reg data) = some v :=
      assocLookup_of_mem_nodup _ _ hmem hnd
    unfold flagValueOf
    rw [hfield, assocLookup_append, hlook]
    rfl
  | check L =>
    have hinj : ∀ a ∈ flagIdx, ∀ b ∈ flagIdx, agFlagName a = agFlagName b → a = b := by decide
    have hnotin : agFlagName i ∉ (collectGroupDirect reg data).map Prod.fst := by
      intro hc
      obtain ⟨p, hp, hfst⟩ := List.mem_map.mp hc
      obtain ⟨j, hj, hfj⟩ := List.mem_filterMap.mp hp
      cases hdj : groupDecision reg data j with
      | direct w =>
        rw [hdj] at hfj
        cases hfj
        have hij := hinj j hj i hi hfst
        rw [hij] at hdj
        rw [hdj] at hd
        cases hd
      | check l => rw [hdj] at hfj; cases hfj
    have hlookA : assocLookup (agFlagName i) (collectGroupDirect reg data) = none :=
      assocLookup_eq_none _ _ hnotin
    have hmemCheck : (⟨agFlagName i, L, false⟩ : CheckEntry) ∈ collectGroupCheck reg data := by
      unfold collectGroupCheck
      exact List.mem_filterMap.mpr ⟨i, hi, by rw [hd]⟩
    have hmemFilter : (⟨agFlagName i, L, false⟩ : CheckEntry) ∈
        (collectHighlightCheck reg data ++ collectGroupCheck reg data).filter
          (fun e => !e.isHighlight) :=
      List.mem_filter.mpr ⟨List.mem_append_right _ hmemCheck, rfl⟩
    have hndF : (((collectHighlightCheck reg data ++ collectGroupCheck reg data).filter
        (fun e => !e.isHighlight)).map (fun e => e.flagName)).Nodup :=
      List.Nodup.sublist (List.Sublist.map _ (List.filter_sublist _))
        (toCheck_names_nodup reg data)
    have hres : assocLookup (agFlagName i)
        (checkMultipleLayoutLimits store
          (collectHighlightCheck reg data ++ collectGroupCheck reg data) data.article_id) =
        some { count := (countOthers store (agFlagName i) data.article_id : Int)
               limit := L.layout_limit
               withinLimit := decide (L.layout_limit ≤ 0) ||
                 decide ((countOthers store (agFlagName i) data.article_id : Int) < L.layout_limit) } := by
      have := assocLookup_map_of_mem (fun e : CheckEntry => e.flagName)
        (fun e => ({ count := (countOthers store e.flagName data.article_id : Int)
                     limit := e.layout.layout_limit
                     withinLimit := decide (e.layout.layout_limit ≤ 0) ||
                       decide ((countOthers store e.flagName data.article_id : Int) <
                         e.layout.layout_limit) } : LimitResult))
        (collectHighlightCheck reg data ++ collectGroupCheck reg data)
        (⟨agFlagName i, L, false⟩ : CheckEntry)
        (List.mem_append_right _ hmemCheck) (toCheck_names_nodup reg data)
      exact this
    have hlookB : assocLookup (agFlagName i)
        (((collectHighlightCheck reg data ++ collectGroupCheck reg data).filter
          (fun e => !e.isHighlight)).map
          (fun e => (e.flagName,
            applyLimitResult
              (checkMultipleLayoutLimits store
                (collectHighlightCheck reg data ++ collectGroupCheck reg data)
                data.article_id) e.flagName))) =
        some (applyLimitResult
          (checkMultipleLayoutLimits store
            (collectHighlightCheck reg data ++ collectGroupCheck reg data)
            data.article_id) (agFlagName i)) := by
      have := assocLookup_map_of_mem (fun e : CheckEntry => e.flagName)
        (fun e => applyLimitResult
          (checkMultipleLayoutLimits store
            (collectHighlightCheck reg data ++ collectGroupCheck reg data)
            data.article_id) e.flagName)
        ((collectHighlightCheck reg data ++ collectGroupCheck reg data).filter
          (fun e => !e.isHighlight))
        (⟨agFlagName i, L, false⟩ : CheckEntry) hmemFilter hndF
      exact this
    unfold flagValueOf
    rw [hfield, assocLookup_append, hlookA]
    simp only [Option.orElse, Option.none_orElse]
    rw [hlookB]
    simp only [Option.getD_some]
    rw [applyLimitResult, hres]
    by_cases hcond : L.layout_limit ≤ 0 ∨
        (countOthers store (agFlagName i) data.article_id : Int) < L.layout_limit
    · rw [if_pos hcond]
      have : (decide (L.layout_limit ≤ 0) ||
          decide ((countOthers store (agFlagName i) data.article_id : Int) < L.layout_limit)) =
          true := by
        rcases hcond with h | h <;> simp [h]
      simp [this]
    · rw [if_neg hcond]
      push_neg at hcond
      have : (decide (L.layout_limit ≤ 0) ||
          decide ((countOthers store (agFlagName i) data.article_id : Int) < L.layout_limit)) =
          false := by
        simp [hcond.1, hcond.2, not_le, not_lt]
      simp [this]

theorem highlightDecision_check_pos (reg : LayoutRegistry) (data : Article) (i : Nat)
    (L : Layout) (h : highlightDecision reg data i = FlagDecision.check L) :
    L.layout_limit > 0 := by
  simp only [highlightDecision] at h
  split at h
  · split at h
    · split at h
      · cases h
        assumption
      · cases h
    · cases h
  · cases h

theorem groupDecision_check_pos (reg : LayoutRegistry) (data : Article) (i : Nat)
    (L : Layout) (h : groupDecision reg data i = FlagDecision.check L) :
    L.layout_limit > 0 := by
  simp only [groupDecision] at h
  split at h
  · split at h
    · rename_i hcond
      cases h
      exact of_decide_eq_true ((Bool.and_eq_true _ _).mp hcond).2
    · split at h
      · cases h
      · cases h
  · cases h

/-- C3: a candidate flag whose active layout declares a positive capacity
limit resolves to Yes exactly when the count of existing mirror rows with
that flag Yes and a different article id is strictly below the limit (so an
update to an already-counted member never counts itself); candidates with no
positive limit resolve to Yes unconditionally; and rows of other articles
are never removed by a create or update classification. -/
theorem C3_capacity_enforcement (src : Option (List Layout)) (store : List Row)
    (data : Article) (now : Int) (op : String) (i : Nat) (L : Layout) (hi : i ∈ flagIdx) :
    (highlightDecision (getCachedLayoutConfigHooks src) data i = FlagDecision.check L →
      (flagValueOf (syncFlags store (getCachedLayoutConfigHooks src) data).highlightFlags
          (hlFlagName i) = "Yes" ↔
        (countOthers store (hlFlagName i) data.article_id : Int) < L.layout_limit)) ∧
    (groupDecision (getCachedLayoutConfigHooks src) data i = FlagDecision.check L →
      (flagValueOf (syncFlags store (getCachedLayoutConfigHooks src) data).articleGroupFlags
          (agFlagName i) = "Yes" ↔
        (countOthers store (agFlagName i) data.article_id : Int) < L.layout_limit)) ∧
    (highlightDecision (getCachedLayoutConfigHooks src) data i = FlagDecision.direct "Yes" →
      flagValueOf (syncFlags store (getCachedLayoutConfigHooks src) data).highlightFlags
        (hlFlagName i) = "Yes") ∧
    (groupDecision (getCachedLayoutConfigHooks src) data i = FlagDecision.direct "Yes" →
      flagValueOf (syncFlags store (getCachedLayoutConfigHooks src) data).articleGroupFlags
        (agFlagName i) = "Yes") ∧
    (op = "create" ∨ op = "update" →
      ∀ r ∈ store, rowId r ≠ data.article_id →
        r ∈ syncToArticlesGroups src store data op now) := by
  refine ⟨?_, ?_, ?_, ?_, ?_⟩
  · intro hd
    rw [syncFlags_highlight_value store _ data i hi, hd]
    dsimp only
    have hpos := highlightDecision_check_pos _ data i L hd
    by_cases hc : (countOthers store (hlFlagName i) data.article_id : Int) < L.layout_limit
    · rw [if_pos (Or.inr hc)]
      exact iff_of_true rfl hc
    · rw [if_neg (by rintro (h1 | h2); omega; exact hc h2)]
      exact iff_of_false (by decide) hc
  · intro hd
    rw [syncFlags_group_value store _ data i hi, hd]
    dsimp only
    have hpos := groupDecision_check_pos _ data i L hd
    by_cases hc : (countOthers store (agFlagName i) data.article_id : Int) < L.layout_limit
    · rw [if_pos (Or.inr hc)]
      exact iff_of_true rfl hc
    · rw [if_neg (by rintro (h1 | h2); omega; exact hc h2)]
      exact iff_of_false (by decide) hc
  · intro hd
    rw [syncFlags_highlight_value store _ data i hi, hd]
  · intro hd
    rw [syncFlags_group_value store _ data i hi, hd]
  · intro hop r hr hne
    by_cases h0 : data.article_id = 0
    · simpa [syncToArticlesGroups, h0] using hr
    · have hne1 : ("update" : String) ≠ "create" := by decide
      rcases hop with hcr | hup
      · subst hcr
        simp only [syncToArticlesGroups, if_neg h0, eq_self_iff_true, ite_true]
        split
        · exact hr
        · exact List.mem_append_left _ hr
      · subst hup
        simp only [syncToArticlesGroups, if_neg h0, hne1, eq_self_iff_true,
          ite_true, ite_false]
        split
        · exact List.mem_filter.mpr ⟨hr, by simpa using hne⟩
        · split
          · exact List.mem_map.mpr ⟨r, hr, by rw [if_neg (by simpa using hne)]⟩
          · exact List.mem_append_left _ hr

/-- C3 witness: the capacity iff at a concrete store — Highlight1 has limit
1 and one existing other member, so the candidate resolves to Yes exactly
when 1 < 1 (that is, it resolves to No). -/
theorem C3_capacity_enforcement_witness :
    flagValueOf (syncFlags [w3Other] (getCachedLayoutConfigHooks (some w3Cfg)) w3Data).highlightFlags
        (hlFlagName 1) = "Yes" ↔
      (countOthers [w3Other] (hlFlagName 1) w3Data.article_id : Int) <
        ({ active := "Yes", layout_name := "Highlight1", layout_limit := 1 } : Layout).layout_limit :=
  (C3_capacity_enforcement (some w3Cfg) [w3Other] w3Data 0 "update" 1
    { active := "Yes", layout_name := "Highlight1", layout_limit := 1 } (by decide)).1
    (by decide)

theorem any_key_congr (r : Row) (p q : String × String → Bool)
    (h : ∀ x, p x = q x) : r.any p = r.any q := by
  induction r with
  | nil => rfl
  | cons a rest ih => simp [List.any_cons, h a, ih]

theorem any_key_map_set (r : Row) (k k2 v2 : String) :
    (r.map (fun p => if p.1 = k2 then (k2, v2) else p)).any (fun p => p.1 = k) =
      r.any (fun p => p.1 = k) := by
  induction r with
  | nil => rfl
  | cons a rest ih =>
    by_cases ha : a.1 = k2
    · simp only [List.map_cons, if_pos ha, List.any_cons, ih]
      have : ((k2, v2) : String × String).1 = k ↔ a.1 = k := by
        constructor
        · intro hc; rw [ha]; exact hc
        · intro hc; rw [← ha]; exact hc
      by_cases hk : a.1 = k <;> simp [hk, this, ha]
    · simp only [List.map_cons, if_neg ha, List.any_cons, ih]

theorem keyPresent_setCol (X : Row) (k k2 v2 : String)
    (h : X.any (fun p => p.1 = k) = true) :
    (setCol X k2 v2).any (fun p => p.1 = k) = true := by
  unfold setCol
  split
  · rw [any_key_map_set]
    exact h
  · rw [List.any_append, h]
    rfl

theorem keyPresent_setCol_self (X : Row) (k v : String) :
    (setCol X k v).any (fun p => p.1 = k) = true := by
  unfold setCol
  split
  · rename_i hany
    rw [any_key_map_set]
    exact hany
  · simp [List.any_append]

theorem keyPresent_applyUpdates (upds : List (String × String)) (X : Row) (k : String)
    (h : X.any (fun p => p.1 = k) = true) :
    (applyUpdates upds X).any (fun p => p.1 = k) = true := by
  induction upds generalizing X with
  | nil => exact h
  | cons u rest ih =>
    unfold applyUpdates
    rw [List.foldl_cons]
    exact ih _ (keyPresent_setCol X k u.1 u.2 h)

theorem map_set_fix (r : Row) (k v : String) (h : r.any (fun p => p.1 = k) = false) :
    r.map (fun p => if p.1 = k then (k, v) else p) = r := by
  induction r with
  | nil => rfl
  | cons a rest ih =>
    rw [List.any_cons] at h
    have ⟨h1, h2⟩ := (Bool.or_eq_false_iff).mp h
    simp only [List.map_cons, if_neg (by simpa using h1), ih h2]

theorem setCol_idem (r : Row) (k v : String) :
    setCol (setCol r k v) k v = setCol r k v := by
  by_cases hany : r.any (fun p => p.1 = k) = true
  · have h1 : setCol r k v = r.map (fun p => if p.1 = k then (k, v) else p) := by
      unfold setCol
      rw [if_pos hany]
    rw [h1]
    unfold setCol
    rw [if_pos (by rw [any_key_map_set]; exact hany)]
    rw [List.map_map]
    congr 1
    funext p
    by_cases hp : p.1 = k <;> simp [Function.comp, hp]
  · have hf : r.any (fun p => p.1 = k) = false := by
      cases h : r.any (fun p => p.1 = k) with
      | false => rfl
      | true => exact absurd h hany
    have h1 : setCol r k v = r ++ [(k, v)] := by
      unfold setCol
      rw [if_neg (by simp [hf])]
    rw [h1]
    unfold setCol
    rw [if_pos (by simp [List.any_append])]
    rw [List.map_append, map_set_fix r k v hf]
    simp

theorem setCol_setCol_ne_present (X : Row) (k k2 v v2 : String) (hne : k ≠ k2)
    (hp : X.any (fun p => p.1 = k) = true) :
    setCol (setCol X k2 v2) k v = setCol (setCol X k v) k2 v2 := by
  have hXk : setCol X k v = X.map (fun p => if p.1 = k then (k, v) else p) := by
    unfold setCol
    rw [if_pos hp]
  by_cases h2 : X.any (fun p => p.1 = k2) = true
  · have hX2 : setCol X k2 v2 = X.map (fun p => if p.1 = k2 then (k2, v2) else p) := by
      unfold setCol
      rw [if_pos h2]
    rw [hX2, hXk]
    have hL : setCol (X.map (fun p => if p.1 = k2 then (k2, v2) else p)) k v =
        (X.map (fun p => if p.1 = k2 then (k2, v2) else p)).map
          (fun p => if p.1 = k then (k, v) else p) := by
      unfold setCol
      rw [if_pos (by rw [any_key_map_set]; exact hp)]
    have hR : setCol (X.map (fun p => if p.1 = k then (k, v) else p)) k2 v2 =
        (X.map (fun p => if p.1 = k then (k, v) else p)).map
          (fun p => if p.1 = k2 then (k2, v2) else p) := by
      unfold setCol
      rw [if_pos (by rw [any_key_map_set]; exact h2)]
    rw [hL, hR, List.map_map, List.map_map]
    congr 1
    funext p
    by_cases hpk : p.1 = k
    · have hpk2 : ¬ p.1 = k2 := by rw [hpk]; exact hne
      simp [Function.comp, hpk, hpk2, hne]
    · by_cases hpk2 : p.1 = k2
      · have : ¬ ((k2, v2) : String × String).1 = k := fun c => hne (by simpa using c.symm)
        simp [Function.comp, hpk, hpk2, this]
      · simp [Function.comp, hpk, hpk2]
  · have hf2 : X.any (fun p => p.1 = k2) = false := by
      cases h : X.any (fun p => p.1 = k2) with
      | false => rfl
      | true => exact absurd h h2
    have hX2 : setCol X k2 v2 = X ++ [(k2, v2)] := by
      unfold setCol
      rw [if_neg (by simp [hf2])]
    rw [hX2, hXk]
    have hL : setCol (X ++ [(k2, v2)]) k v =
        (X ++ [(k2, v2)]).map (fun p => if p.1 = k then (k, v) else p) := by
      unfold setCol
      rw [if_pos (by rw [List.any_append, hp]; rfl)]
    have hR : setCol (X.map (fun p => if p.1 = k then (k, v) else p)) k2 v2 =
        X.map (fun p => if p.1 = k then (k, v) else p) ++ [(k2, v2)] := by
      unfold setCol
      rw [if_neg (by rw [any_key_map_set]; simp [hf2])]
    rw [hL, hR, List.map_append]
    congr 1
    simp [hne.symm]

theorem setCol_applyUpdates_comm (rest : List (String × String)) (X : Row)
    (k v : String) (hk : ∀ kv ∈ rest, kv.1 ≠ k)
    (hp : X.any (fun p => p.1 = k) = true) :
    setCol (applyUpdates rest X) k v = applyUpdates rest (setCol X k v) := by
  induction rest generalizing X with
  | nil => rfl
  | cons u us ih =>
    unfold applyUpdates
    rw [List.foldl_cons, List.foldl_cons]
    have hu : u.1 ≠ k := hk u (List.mem_cons_self _ _)
    have step : setCol (setCol X u.1 u.2) k v = setCol (setCol X k v) u.1 u.2 :=
      setCol_setCol_ne_present X k u.1 v u.2 (fun c => hu c.symm) hp
    have := ih (setCol X u.1 u.2) (fun kv hkv => hk kv (List.mem_cons_of_mem _ hkv))
      (keyPresent_setCol X k u.1 u.2 hp)
    unfold applyUpdates at this
    rw [this, step]

theorem applyUpdates_idem (upds : List (String × String)) (r : Row)
    (hnd : (upds.map Prod.fst).Nodup) :
    applyUpdates upds (applyUpdates upds r) = applyUpdates upds r := by
  induction upds generalizing r with
  | nil => rfl
  | cons u us ih =>
    rw [List.map_cons, List.nodup_cons] at hnd
    have hk : ∀ kv ∈ us, kv.1 ≠ u.1 := by
      intro kv hkv hc
      exact hnd.1 (hc ▸ List.mem_map_of_mem Prod.fst hkv)
    unfold applyUpdates
    rw [List.foldl_cons, List.foldl_cons]
    have hcomm := setCol_applyUpdates_comm us (setCol r u.1 u.2) u.1 u.2 hk
      (keyPresent_setCol_self r u.1 u.2)
    unfold applyUpdates at hcomm ih
    rw [hcomm, setCol_idem]
    exact ih (setCol r u.1 u.2) hnd.2

theorem getCol_map_set_ne (r : Row) (k v k' : String) (h : k ≠ k') :
    getCol (r.map (fun p => if p.1 = k then (k, v) else p)) k' = getCol r k' := by
  induction r with
  | nil => rfl
  | cons a rest ih =>
    by_cases ha : a.1 = k
    · have ha' : ¬ a.1 = k' := fun c => h (ha ▸ c)
      simp only [List.map_cons, if_pos ha, getCol, List.find?]
      rw [show (decide (((k, v) : String × String).1 = k')) = false from by
        simp [h], show (decide (a.1 = k')) = false from by simp [ha']]
      exact ih
    · simp only [List.map_cons, if_neg ha, getCol, List.find?]
      cases hd : decide (a.1 = k') with
      | true => rfl
      | false => exact ih

theorem getCol_append_single_ne (r : Row) (k v k' : String) (h : k ≠ k') :
    getCol (r ++ [(k, v)]) k' = getCol r k' := by
  induction r with
  | nil =>
    simp only [List.nil_append, getCol, List.find?]
    rw [show (decide (((k, v) : String × String).1 = k')) = false from by simp [h]]
  | cons a rest ih =>
    simp only [List.cons_append, getCol, List.find?]
    cases hd : decide (a.1 = k') with
    | true => rfl
    | false => exact ih

theorem getCol_setCol_ne (r : Row) (k v k' : String) (h : k ≠ k') :
    getCol (setCol r k v) k' = getCol r k' := by
  unfold setCol
  split
  · exact getCol_map_set_ne r k v k' h
  · exact getCol_append_single_ne r k v k' h

theorem getCol_applyUpdates_notin (upds : List (String × String)) (r : Row) (k' : String)
    (h : ∀ kv ∈ upds, kv.1 ≠ k') :
    getCol (applyUpdates upds r) k' = getCol r k' := by
  induction upds generalizing r with
  | nil => rfl
  | cons u us ih =>
    unfold applyUpdates
    rw [List.foldl_cons]
    have := ih (setCol r u.1 u.2) (fun kv hkv => h kv (List.mem_cons_of_mem _ hkv))
    unfold applyUpdates at this
    rw [this, getCol_setCol_ne r u.1 u.2 k' (h u (List.mem_cons_self _ _))]

theorem rowId_applyUpdates (upds : List (String × String)) (r : Row)
    (h : ∀ kv ∈ upds, kv.1 ≠ "article_id") :
    rowId (applyUpdates upds r) = rowId r := by
  unfold rowId getColD
  rw [getCol_applyUpdates_notin upds r _ h]

theorem filter_of_filter_ne (l : List Row) (f : String) (id : Int) :
    (l.filter (fun r => rowId r != id)).filter
        (fun r => getCol r f == some "Yes" && rowId r != id) =
      l.filter (fun r => getCol r f == some "Yes" && rowId r != id) := by
  induction l with
  | nil => rfl
  | cons r rest ih =>
    simp only [List.filter_cons]
    by_cases hid : (rowId r != id) = true
    · rw [if_pos hid]
      simp only [List.filter_cons]
      by_cases hP : (getCol r f == some "Yes" && rowId r != id) = true
      · rw [if_pos hP, if_pos hP, ih]
      · rw [if_neg hP, if_neg hP, ih]
    · have hid' : (rowId r != id) = false := by
        cases h : (rowId r != id) with
        | false => rfl
        | true => exact absurd h hid
      rw [if_neg (by simp [hid']), ih, if_neg (by simp [hid'])]

theorem countOthers_filter_self (store : List Row) (f : String) (id : Int) :
    countOthers (store.filter (fun r => rowId r != id)) f id = countOthers store f id := by
  unfold countOthers
  rw [filter_of_filter_ne store f id]

theorem filter_of_map_u (l : List Row) (f : String) (id : Int) (u : Row → Row)
    (hu1 : ∀ r, rowId (u r) = rowId r) (hu2 : ∀ r, rowId r ≠ id → u r = r) :
    (l.map u).filter (fun r => getCol r f == some "Yes" && rowId r != id) =
      l.filter (fun r => getCol r f == some "Yes" && rowId r != id) := by
  induction l with
  | nil => rfl
  | cons r rest ih =>
    simp only [List.map_cons, List.filter_cons]
    by_cases hid : rowId r = id
    · rw [if_neg (by simp [hu1 r, hid]), if_neg (by simp [hid]), ih]
    · rw [hu2 r hid, ih]

theorem countOthers_map_u (store : List Row) (f : String) (id : Int) (u : Row → Row)
    (hu1 : ∀ r, rowId (u r) = rowId r) (hu2 : ∀ r, rowId r ≠ id → u r = r) :
    countOthers (store.map u) f id = countOthers store f id := by
  unfold countOthers
  rw [filter_of_map_u store f id u hu1 hu2]

theorem syncFlags_congr (store1 store2 : List Row) (reg : LayoutRegistry) (data : Article)
    (h : ∀ f, countOthers store1 f data.article_id = countOthers store2 f data.article_id) :
    syncFlags store1 reg data = syncFlags store2 reg data := by
  have hbatch : ∀ toCheck, checkMultipleLayoutLimits store1 toCheck data.article_id =
      checkMultipleLayoutLimits store2 toCheck data.article_id := by
    intro toCheck
    unfold checkMultipleLayoutLimits
    apply List.map_congr_left
    intro e _
    rw [h e.flagName]
  unfold syncFlags
  simp only [hbatch]

theorem any_rowId_map_u (store : List Row) (id : Int) (u : Row → Row)
    (hu1 : ∀ r, rowId (u r) = rowId r) :
    (store.map u).any (fun r => rowId r == id) = store.any (fun r => rowId r == id) := by
  induction store with
  | nil => rfl
  | cons r rest ih => simp [List.any_cons, hu1 r, ih]

theorem hlCheck_isHighlight (reg : LayoutRegistry) (data : Article) :
    ∀ e ∈ collectHighlightCheck reg data, e.isHighlight = true := by
  intro e he
  obtain ⟨j, _, hfj⟩ := List.mem_filterMap.mp he
  cases hdj : highlightDecision reg data j with
  | check l => rw [hdj] at hfj; cases hfj; rfl
  | direct v => rw [hdj] at hfj; cases hfj

theorem agCheck_isHighlight (reg : LayoutRegistry) (data : Article) :
    ∀ e ∈ collectGroupCheck reg data, e.isHighlight = false := by
  intro e he
  obtain ⟨j, _, hfj⟩ := List.mem_filterMap.mp he
  cases hdj : groupDecision reg data j with
  | check l => rw [hdj] at hfj; cases hfj; rfl
  | direct v => rw [hdj] at hfj; cases hfj

theorem filter_isHighlight_eq (reg : LayoutRegistry) (data : Article) :
    (collectHighlightCheck reg data ++ collectGroupCheck reg data).filter
      (fun e => e.isHighlight) = collectHighlightCheck reg data := by
  rw [List.filter_append]
  rw [List.filter_eq_self.mpr (hlCheck_isHighlight reg data),
    List.filter_eq_nil.mpr (fun e he => by simp [agCheck_isHighlight reg data e he]),
    List.append_nil]

theorem filter_not_isHighlight_eq (reg : LayoutRegistry) (data : Article) :
    (collectHighlightCheck reg data ++ collectGroupCheck reg data).filter
      (fun e => !e.isHighlight) = collectGroupCheck reg data := by
  rw [List.filter_append]
  rw [List.filter_eq_nil.mpr (fun e he => by simp [hlCheck_isHighlight reg data e he]),
    List.filter_eq_self.mpr (fun e he => by simp [agCheck_isHighlight reg data e he]),
    List.nil_append]

theorem syncFlags_hl_names_subset (store : List Row) (reg : LayoutRegistry)
    (data : Article) :
    ((syncFlags store reg data).highlightFlags.map Prod.fst) ⊆ flagIdx.map hlFlagName := by
  have hfield : (syncFlags store reg data).highlightFlags =
      collectHighlightDirect reg data ++
        ((collectHighlightCheck reg data ++ collectGroupCheck reg data).filter
          (fun e => e.isHighlight)).map
          (fun e => (e.flagName,
            applyLimitResult
              (checkMultipleLayoutLimits store
                (collectHighlightCheck reg data ++ collectGroupCheck reg data)
                data.article_id) e.flagName)) := rfl
  rw [hfield, filter_isHighlight_eq, List.map_append, List.map_map]
  apply List.append_subset.mpr
  constructor
  · exact (hlDirect_names_sublist reg data).subset
  · intro n hn
    obtain ⟨e, he, hne⟩ := List.mem_map.mp hn
    have : e.flagName ∈ (collectHighlightCheck reg data).map (fun e => e.flagName) :=
      List.mem_map_of_mem _ he
    exact (hlCheck_names_sublist reg data).subset (hne ▸ this)

theorem syncFlags_ag_names_subset (store : List Row) (reg : LayoutRegistry)
    (data : Article) :
    ((syncFlags store reg data).articleGroupFlags.map Prod.fst) ⊆ flagIdx.map agFlagName := by
  have hfield : (syncFlags store reg data).articleGroupFlags =
      collectGroupDirect reg data ++
        ((collectHighlightCheck reg data ++ collectGroupCheck reg data).filter
          (fun e => !e.isHighlight)).map
          (fun e => (e.flagName,
            applyLimitResult
              (checkMultipleLayoutLimits store
                (collectHighlightCheck reg data ++ collectGroupCheck reg data)
                data.article_id) e.flagName)) := rfl
  rw [hfield, filter_not_isHighlight_eq, List.map_append, List.map_map]
  apply List.append_subset.mpr
  constructor
  · exact (agDirect_names_sublist reg data).subset
  · intro n hn
    obtain ⟨e, he, hne⟩ := List.mem_map.mp hn
    have : e.flagName ∈ (collectGroupCheck reg data).map (fun e => e.flagName) :=
      List.mem_map_of_mem _ he
    exact (agCheck_names_sublist reg data).subset (hne ▸ this)

theorem syncFlags_hl_names_nodup (store : List Row) (reg : LayoutRegistry)
    (data : Article) :
    ((syncFlags store reg data).highlightFlags.map Prod.fst).Nodup := by
  have hfield : (syncFlags store reg data).highlightFlags =
      collectHighlightDirect reg data ++
        ((collectHighlightCheck reg data ++ collectGroupCheck reg data).filter
          (fun e => e.isHighlight)).map
          (fun e => (e.flagName,
            applyLimitResult
              (checkMultipleLayoutLimits store
                (collectHighlightCheck reg data ++ collectGroupCheck reg data)
                data.article_id) e.flagName)) := rfl
  rw [hfield, filter_isHighlight_eq, List.map_append, List.map_map]
  have hinj : ∀ a ∈ flagIdx, ∀ b ∈ flagIdx, hlFlagName a = hlFlagName b → a = b := by decide
  apply List.Nodup.append
  · exact List.Nodup.sublist (hlDirect_names_sublist reg data) (by decide)
  · exact List.Nodup.sublist (hlCheck_names_sublist reg data) (by decide)
  · intro n hn1 hn2
    obtain ⟨p, hp, hfst⟩ := List.mem_map.mp hn1
    obtain ⟨j, hj, hfj⟩ := List.mem_filterMap.mp hp
    obtain ⟨e, he, hne⟩ := List.mem_map.mp hn2
    obtain ⟨j2, hj2, hfj2⟩ := List.mem_filterMap.mp he
    cases hdj : highlightDecision reg data j with
    | check l => rw [hdj] at hfj; cases hfj
    | direct v =>
      rw [hdj] at hfj
      cases hfj
      cases hdj2 : highlightDecision reg data j2 with
      | direct w => rw [hdj2] at hfj2; cases hfj2
      | check l2 =>
        rw [hdj2] at hfj2
        cases hfj2
        have : hlFlagName j = hlFlagName j2 := by
          have h1 : hlFlagName j = n := by simpa using hfst
          have h2 : hlFlagName j2 = n := by simpa using hne
          rw [h1, h2]
        have hjj := hinj j hj j2 hj2 this
        rw [hjj] at hdj
        rw [hdj] at hdj2
        cases hdj2

theorem syncFlags_ag_names_nodup (store : List Row) (reg : LayoutRegistry)
    (data : Article) :
    ((syncFlags store reg data).articleGroupFlags.map Prod.fst).Nodup := by
  have hfield : (syncFlags store reg data).articleGroupFlags =
      collectGroupDirect reg data ++
        ((collectHighlightCheck reg data ++ collectGroupCheck reg data).filter
          (fun e => !e.isHighlight)).map
          (fun e => (e.flagName,
            applyLimitResult
              (checkMultipleLayoutLimits store
                (collectHighlightCheck reg data ++ collectGroupCheck reg data)
                data.article_id) e.flagName)) := rfl
  rw [hfield, filter_not_isHighlight_eq, List.map_append, List.map_map]
  have hinj : ∀ a ∈ flagIdx, ∀ b ∈ flagIdx, agFlagName a = agFlagName b → a = b := by decide
  apply List.Nodup.append
  · exact List.Nodup.sublist (agDirect_names_sublist reg data) (by decide)
  · exact List.Nodup.sublist (agCheck_names_sublist reg data) (by decide)
  · intro n hn1 hn2
    obtain ⟨p, hp, hfst⟩ := List.mem_map.mp hn1
    obtain ⟨j, hj, hfj⟩ := List.mem_filterMap.mp hp
    obtain ⟨e, he, hne⟩ := List.mem_map.mp hn2
    obtain ⟨j2, hj2, hfj2⟩ := List.mem_filterMap.mp he
    cases hdj : groupDecision reg data j with
    | check l => rw [hdj] at hfj; cases hfj
    | direct v =>
      rw [hdj] at hfj
      cases hfj
      cases hdj2 : groupDecision reg data j2 with
      | direct w => rw [hdj2] at hfj2; cases hfj2
      | check l2 =>
        rw [hdj2] at hfj2
        cases hfj2
        have : agFlagName j = agFlagName j2 := by
          have h1 : agFlagName j = n := by simpa using hfst
          have h2 : agFlagName j2 = n := by simpa using hne
          rw [h1, h2]
        have hjj := hinj j hj j2 hj2 this
        rw [hjj] at hdj
        rw [hdj] at hdj2
        cases hdj2

/-- The update statement key list (timestamp plus all flag columns) has
distinct keys, none of which is article_id. -/
theorem updateKeys_facts (store : List Row) (reg : LayoutRegistry) (data : Article)
    (now : Int) :
    ((((("last_update_date", toString now)) ::
        ((syncFlags store reg data).highlightFlags ++
          (syncFlags store reg data).articleGroupFlags)).map Prod.fst).Nodup) ∧
    (∀ kv ∈ (("last_update_date", toString now)) ::
        ((syncFlags store reg data).highlightFlags ++
          (syncFlags store reg data).articleGroupFlags), kv.1 ≠ "article_id") := by
  have hhl := syncFlags_hl_names_subset store reg data
  have hag := syncFlags_ag_names_subset store reg data
  have hlud1 : ∀ n ∈ flagIdx.map hlFlagName, n ≠ "last_update_date" := by decide
  have hlud2 : ∀ n ∈ flagIdx.map agFlagName, n ≠ "last_update_date" := by decide
  have haid0 : ("last_update_date" : String) ≠ "article_id" := by decide
  have haid1 : ∀ n ∈ flagIdx.map hlFlagName, n ≠ "article_id" := by decide
  have haid2 : ∀ n ∈ flagIdx.map agFlagName, n ≠ "article_id" := by decide
  have hcross : ∀ a ∈ flagIdx.map hlFlagName, a ∉ flagIdx.map agFlagName := by decide
  constructor
  · rw [List.map_cons, List.nodup_cons, List.map_append]
    constructor
    · intro hc
      rcases List.mem_append.mp hc with hc1 | hc2
      · exact hlud1 _ (hhl hc1) rfl
      · exact hlud2 _ (hag hc2) rfl
    · apply List.Nodup.append
      · exact syncFlags_hl_names_nodup store reg data
      · exact syncFlags_ag_names_nodup store reg data
      · intro n hn1 hn2
        exact hcross n (hhl hn1) (hag hn2)
  · intro kv hkv
    rcases List.mem_cons.mp hkv with rfl | hkv2
    · exact haid0
    · rcases List.mem_append.mp hkv2 with hk1 | hk2
      · exact haid1 _ (hhl (List.mem_map_of_mem Prod.fst hk1))
      · exact haid2 _ (hag (List.mem_map_of_mem Prod.fst hk2))

theorem filter_self_idem {α : Type} (p : α → Bool) (l : List α) :
    (l.filter p).filter p = l.filter p := by
  induction l with
  | nil => rfl
  | cons a rest ih =>
    simp only [List.filter_cons]
    by_cases hp : p a = true
    · rw [if_pos hp]
      simp only [List.filter_cons]
      rw [if_pos hp, ih]
    · rw [if_neg hp, ih]

theorem rowId_updateRowFlags (r : Row) (hl ag : List (String × String)) (now : Int)
    (h : ∀ kv ∈ (("last_update_date", toString now)) :: (hl ++ ag), kv.1 ≠ "article_id") :
    rowId (updateRowFlags r hl ag now) = rowId r := by
  unfold updateRowFlags
  exact rowId_applyUpdates _ r h

theorem updateRowFlags_idem (r : Row) (hl ag : List (String × String)) (now : Int)
    (hnd : (((("last_update_date", toString now)) :: (hl ++ ag)).map Prod.fst).Nodup) :
    updateRowFlags (updateRowFlags r hl ag now) hl ag now = updateRowFlags r hl ag now := by
  unfold updateRowFlags
  exact applyUpdates_idem _ r hnd

/-- The update operation of syncToArticlesGroups in explicit branch form. -/
theorem sync_update_eq (src : Option (List Layout)) (store : List Row) (data : Article)
    (now : Int) (h0 : data.article_id ≠ 0) :
    syncToArticlesGroups src store data "update" now =
      (if (!hasAnyYes (syncFlags store (getCachedLayoutConfigHooks src) data).highlightFlags &&
           !hasAnyYes (syncFlags store (getCachedLayoutConfigHooks src) data).articleGroupFlags) = true
       then store.filter (fun r => rowId r != data.article_id)
       else if store.any (fun r => rowId r == data.article_id) = true then
         store.map (fun r =>
           if (rowId r == data.article_id) = true then
             updateRowFlags r
               (syncFlags store (getCachedLayoutConfigHooks src) data).highlightFlags
               (syncFlags store (getCachedLayoutConfigHooks src) data).articleGroupFlags now
           else r)
       else store ++
         [buildInsertRow data
           (syncFlags store (getCachedLayoutConfigHooks src) data).highlightFlags
           (syncFlags store (getCachedLayoutConfigHooks src) data).articleGroupFlags now]) := by
  have hne1 : ("update" : String) ≠ "create" := by decide
  simp only [syncToArticlesGroups, if_neg h0, hne1, eq_self_iff_true, ite_true, ite_false]

/-- C8 counterexample: classifying the same unchanged item twice writes
different rows: the first (insert) write keeps the item-supplied
last_update_date, the second (update) write rewrites it with the clock, so
the MirrorRecords of the two calls differ. -/
theorem C8_cx_second_write_differs :
    syncToArticlesGroups (some [])
        (syncToArticlesGroups (some []) [] c8Data "update" 1000) c8Data "update" 1000 ≠
      syncToArticlesGroups (some []) [] c8Data "update" 1000 := by decide

/-- C8 (amended): re-running the update classification on the same unchanged
item and stores is idempotent whenever a MirrorRecord for the item already
exists (or every flag resolves to No): the second call writes exactly the
same store as the first.  Only the insert path (no pre-existing row with
some flag Yes) can differ, and then only in last_update_date. -/
theorem C8_classify_update_idem (src : Option (List Layout)) (store : List Row)
    (data : Article) (now : Int) (h0 : data.article_id ≠ 0)
    (hcase : store.any (fun r => rowId r == data.article_id) = true ∨
      (hasAnyYes (syncFlags store (getCachedLayoutConfigHooks src) data).highlightFlags = false ∧
       hasAnyYes (syncFlags store (getCachedLayoutConfigHooks src) data).articleGroupFlags = false)) :
    syncToArticlesGroups src (syncToArticlesGroups src store data "update" now)
        data "update" now =
      syncToArticlesGroups src store data "update" now := by
  have hkeys := updateKeys_facts store (getCachedLayoutConfigHooks src) data now
  by_cases hall :
      (!hasAnyYes (syncFlags store (getCachedLayoutConfigHooks src) data).highlightFlags &&
       !hasAnyYes (syncFlags store (getCachedLayoutConfigHooks src) data).articleGroupFlags) = true
  · have hs1 : syncToArticlesGroups src store data "update" now =
        store.filter (fun r => rowId r != data.article_id) := by
      rw [sync_update_eq src store data now h0, if_pos hall]
    have hcnt : ∀ f, countOthers (store.filter (fun r => rowId r != data.article_id)) f
        data.article_id = countOthers store f data.article_id :=
      fun f => countOthers_filter_self store f data.article_id
    have hcongr : syncFlags (store.filter (fun r => rowId r != data.article_id))
        (getCachedLayoutConfigHooks src) data =
        syncFlags store (getCachedLayoutConfigHooks src) data :=
      syncFlags_congr _ _ _ _ hcnt
    rw [hs1, sync_update_eq src _ data now h0, hcongr, if_pos hall,
      filter_self_idem]
  · have hex : store.any (fun r => rowId r == data.article_id) = true := by
      rcases hcase with h | h
      · exact h
      · exact absurd (by rw [h.1, h.2]; rfl) hall
    have hu1 : ∀ r : Row, rowId (if (rowId r == data.article_id) = true then
        updateRowFlags r
          (syncFlags store (getCachedLayoutConfigHooks src) data).highlightFlags
          (syncFlags store (getCachedLayoutConfigHooks src) data).articleGroupFlags now
        else r) = rowId r := by
      intro r
      by_cases hb : (rowId r == data.article_id) = true
      · rw [if_pos hb]
        exact rowId_applyUpdates _ r hkeys.2
      · rw [if_neg hb]
    have hu2 : ∀ r : Row, rowId r ≠ data.article_id →
        (if (rowId r == data.article_id) = true then
          updateRowFlags r
            (syncFlags store (getCachedLayoutConfigHooks src) data).highlightFlags
            (syncFlags store (getCachedLayoutConfigHooks src) data).articleGroupFlags now
         else r) = r := by
      intro r hr
      rw [if_neg (by simpa using hr)]
    have hs1 : syncToArticlesGroups src store data "update" now =
        store.map (fun r =>
          if (rowId r == data.article_id) = true then
            updateRowFlags r
              (syncFlags store (getCachedLayoutConfigHooks src) data).highlightFlags
              (syncFlags store (getCachedLayoutConfigHooks src) data).articleGroupFlags now
          else r) := by
      rw [sync_update_eq src store data now h0, if_neg hall, if_pos hex]
    have hcnt : ∀ f, countOthers (syncToArticlesGroups src store data "update" now) f
        data.article_id = countOthers store f data.article_id := by
      intro f
      rw [hs1]
      exact countOthers_map_u store f data.article_id _ hu1 hu2
    have hcongr : syncFlags (syncToArticlesGroups src store data "update" now)
        (getCachedLayoutConfigHooks src) data =
        syncFlags store (getCachedLayoutConfigHooks src) data :=
      syncFlags_congr _ _ _ _ hcnt
    have hex2 : (syncToArticlesGroups src store data "update" now).any
        (fun r => rowId r == data.article_id) = true := by
      rw [hs1, any_rowId_map_u store data.article_id _ hu1]
      exact hex
    rw [sync_update_eq src (syncToArticlesGroups src store data "update" now) data now h0,
      hcongr, if_neg hall, if_pos hex2, hs1, List.map_map]
    apply List.map_congr_left
    intro r _
    by_cases hb : (rowId r == data.article_id) = true
    · have hstep1 : (fun r =>
          if (rowId r == data.article_id) = true then
            updateRowFlags r
              (syncFlags store (getCachedLayoutConfigHooks src) data).highlightFlags
              (syncFlags store (getCachedLayoutConfigHooks src) data).articleGroupFlags now
          else r) r = updateRowFlags r
            (syncFlags store (getCachedLayoutConfigHooks src) data).highlightFlags
            (syncFlags store (getCachedLayoutConfigHooks src) data).articleGroupFlags now :=
        if_pos hb
      simp only [Function.comp, hstep1]
      have hb2 : (rowId (updateRowFlags r
          (syncFlags store (getCachedLayoutConfigHooks src) data).highlightFlags
          (syncFlags store (getCachedLayoutConfigHooks src) data).articleGroupFlags now) ==
          data.article_id) = true := by
        rw [rowId_updateRowFlags r _ _ now hkeys.2]
        exact hb
      rw [if_pos hb2]
      exact updateRowFlags_idem r _ _ now hkeys.1
    · simp only [Function.comp]
      rw [if_neg hb, if_neg hb]

/-- C8 witness: with a pre-existing mirror row for the item, the amended
idempotence theorem applies and the second classification writes the same
store. -/
theorem C8_classify_update_idem_witness :
    syncToArticlesGroups (some [])
        (syncToArticlesGroups (some []) [c4Row] w3Data "update" 5) w3Data "update" 5 =
      syncToArticlesGroups (some []) [c4Row] w3Data "update" 5 :=
  C8_classify_update_idem (some []) [c4Row] w3Data 5 (by decide) (Or.inl (by decide))

/-- C4 witness: the amended theorem at a concrete all-No classification —
the update path deletes the stale row, the create path leaves it. -/
theorem C4_all_no_paths_witness :
    syncToArticlesGroups (some []) [c4Row] c4Data "update" 0 =
      [c4Row].filter (fun r => rowId r != c4Data.article_id) ∧
    syncToArticlesGroups (some []) [c4Row] c4Data "create" 0 = [c4Row] :=
  ⟨(C4_all_no_paths (some []) [c4Row] c4Data 0 (by decide) (by decide) (by decide)).1,
   (C4_all_no_paths (some []) [c4Row] c4Data 0 (by decide) (by decide) (by decide)).2.2⟩

end MyCms
